import Mathlib

/-!
Verification development for the `smartmultiprocessing` repository.

The scheduler (`src/_sphandler.py`, class `SubprocessHandler`) is embedded as a
pure transition system: numpy arrays become `List`s, the pandas dataframe
`task_information` becomes a `List TaskRow` indexed by its row labels
(0, 1, 2, ... as produced by `pd.concat(..., ignore_index=True)`), floats
become rationals, and every operation that can raise a Python exception
returns `Except RunError`.  All nondeterministic external inputs of one
iteration of the run loop (psutil samples, process exit codes, pipe messages,
the wall clock) are collected in a `TickEnv` record.

The process wrapper (`src/src/smartmultiprocessing/process.py`, class
`SmartProcess`) is embedded separately at the end of the file.

Column access on the dataframe is modelled by `df_loc_rows_col`, which checks
the requested column against the actual column set of `task_information`
(`dfColumns` below, taken from `_generate_task_info_dataframe`) and raises the
pandas `KeyError` for any other column, exactly as `DataFrame.loc` does.
-/

/-- Decidable equality on `Except`, so that runs of the model on concrete
inputs can be checked by `decide`. -/
instance {ε α : Type} [DecidableEq ε] [DecidableEq α] : DecidableEq (Except ε α) :=
  fun x y =>
    match x, y with
    | Except.ok a, Except.ok b =>
      if h : a = b then isTrue (by rw [h]) else isFalse (by simp [h])
    | Except.error e, Except.error f =>
      if h : e = f then isTrue (by rw [h]) else isFalse (by simp [h])
    | Except.ok _, Except.error _ => isFalse (by simp)
    | Except.error _, Except.ok _ => isFalse (by simp)

namespace SMP

/-- Errors that `SubprocessHandler` methods can raise.  Each constructor
corresponds to one concrete Python exception site. -/
inductive RunError where
  /-- `RuntimeError("no uncompleted tasks found! ...")` in
  `_generate_task_info_dataframe`. -/
  | noUncompletedTasks
  /-- `RuntimeError("process has encountered an overmemory event ...")` in
  `_check_memory_usage` when `overmemory_raise_error` is set. -/
  | overmemoryRaise
  /-- `RuntimeError("... I had to kill *all* subprocesses ...")` in
  `_check_memory_usage`, carrying the tasks running at the start of
  mitigation together with their last observed memory. -/
  | allProcessesKilled (tasks : List (Int × ℚ))
  /-- `ValueError(f"Process {i} failed while working on task ...")` in
  `_poll_subprocesses`. -/
  | processFailed (slot : Nat) (task : Int)
  /-- Python `AttributeError`: reading `self.current_max_threads` when the
  attribute was never assigned. -/
  | attributeError
  /-- Python `IndexError`: `nonzero()[0][0]` on an empty selection. -/
  | indexError
  /-- pandas `KeyError` from `DataFrame.loc` on a missing column, or a
  missing key of a process dict. -/
  | keyError (label : String)
  /-- pandas `KeyError` from `DataFrame.loc` on a missing row label. -/
  | rowKeyError (label : Int)
  /-- pandas `ValueError` from `Series.idxmax` on an empty series. -/
  | valueErrorEmptySeries
  /-- Fuel exhaustion of a loop; never produced by a reachable call. -/
  | nonTermination
  deriving DecidableEq, Repr

/-- One row of the `task_information` dataframe, with exactly the columns
created in `_generate_task_info_dataframe`.  `np.nan` cells are `none`. -/
structure TaskRow where
  args : Int
  metadata : Int
  runtime : Option ℚ
  memory : Option ℚ
  expected_runtime : ℚ
  expected_memory : ℚ
  completion_time : ℚ
  remaining_to_do : Bool
  deriving DecidableEq, Repr

instance : Inhabited TaskRow :=
  ⟨{ args := 0, metadata := 0, runtime := none, memory := none,
     expected_runtime := 1, expected_memory := 1/10, completion_time := 0,
     remaining_to_do := true }⟩

/-- The column labels of `task_information`.  Note that `start_time` is not
among them: per-process start times are only stored in the process dicts
(`self.processes[i]['start_time']`, see `_start_subprocess`). -/
def dfColumns : List String :=
  ["args", "metadata", "runtime", "memory", "expected_runtime",
   "expected_memory", "completion_time", "remaining_to_do"]

/-- Numeric view of one dataframe cell (only consulted for columns that are
present; `np.nan` reads as 0 here, which no reachable code path depends on). -/
def TaskRow.numericCell (r : TaskRow) : String → ℚ
  | "args" => (r.args : ℚ)
  | "metadata" => (r.metadata : ℚ)
  | "runtime" => r.runtime.getD 0
  | "memory" => r.memory.getD 0
  | "expected_runtime" => r.expected_runtime
  | "expected_memory" => r.expected_memory
  | "completion_time" => r.completion_time
  | _ => if r.remaining_to_do then 1 else 0

/-- `task_information.loc[rows, col]`: a list-of-labels / single-column `loc`.
pandas raises `KeyError(col)` if `col` is not a column of the frame,
independently of the row selection. -/
def df_loc_rows_col (tasks : List TaskRow) (rows : List Nat) (col : String) :
    Except RunError (List (Nat × ℚ)) :=
  if col ∈ dfColumns then
    Except.ok (rows.map (fun t => (t, (tasks.getD t default).numericCell col)))
  else
    Except.error (RunError.keyError col)

/-- `Series.idxmax`: label of the first occurrence of the maximum value;
`ValueError` on an empty series. -/
def series_idxmax : List (Nat × ℚ) → Except RunError Nat
  | [] => Except.error RunError.valueErrorEmptySeries
  | e :: rest => Except.ok (rest.foldl (fun best x => if x.2 > best.2 then x else best) e).1

/-- `task_information.loc[label, ...]` row access; the row labels are
`0, ..., len-1` (`ignore_index=True`), so any other label raises `KeyError`. -/
def df_loc_row (tasks : List TaskRow) (label : Int) : Except RunError TaskRow :=
  if 0 ≤ label ∧ label.toNat < tasks.length then
    Except.ok (tasks.getD label.toNat default)
  else
    Except.error (RunError.rowKeyError label)

/-- The run configuration dict, restricted to the keys the core reads. -/
structure Config where
  max_threads : Nat
  max_memory : ℚ
  max_memory_hard_limit : ℚ
  overmemory_raise_error : Bool
  benchmarking_tasks : Nat
  args : List Int
  metadata : List Int
  deriving Repr

/-- One entry of `self.processes`: the slot dict.  `proc = some ()` models a
live `multiprocessing.Process` reference, `none` models `None`.  The
`start_time` key is only present (`some`) after `_start_subprocess` set it. -/
structure SlotEntry where
  update : String
  proc : Option Unit
  start_time : Option ℚ
  deriving DecidableEq, Repr

/-- `self.default_process_dict` (the `'fuck_you_pycharm'` type-hint key and
the pipe object carry no model-relevant state). -/
def default_process_dict : SlotEntry :=
  { update := "-", proc := none, start_time := none }

/-- The mutable state of a `SubprocessHandler`. -/
structure SchedState where
  current_task_assignments : List Int
  task_information : List TaskRow
  processes : List SlotEntry
  tasks_total : Nat
  tasks_completed : Nat
  /-- `self.current_max_threads`; `none` models the attribute never having
  been assigned (reading it then raises `AttributeError`). -/
  current_max_threads : Option Nat
  process_cpu_usage : List ℚ
  process_memory_usage : List ℚ
  total_cpu_usage : ℚ
  total_memory_usage : ℚ
  expected_memory_usage : ℚ
  deriving DecidableEq, Repr

/-- External inputs consumed during one iteration of the run loop: per-slot
psutil CPU / memory samples, per-slot `Process.exitcode`, queued pipe
messages, and the wall clock (`time.time()` / `datetime.now()`). -/
structure TickEnv where
  cpu : Nat → ℚ
  mem : Nat → ℚ
  exitcode : Nat → Option Int
  updates : Nat → List String
  now : ℚ

/-- Number of occupied slots: `np.count_nonzero(current_task_assignments != -1)`. -/
def occCount (l : List Int) : Nat :=
  l.countP (fun a => decide (a ≠ -1))

/-- `(self.current_task_assignments != -1).nonzero()[0]`. -/
def running_process_slots (st : SchedState) : List Nat :=
  (List.range st.current_task_assignments.length).filter
    (fun i => decide (st.current_task_assignments.getD i (-1) ≠ -1))

/-- `self.current_task_assignments[running_processes]`, as row labels. -/
def running_task_ids (st : SchedState) : List Nat :=
  (running_process_slots st).map (fun i => (st.current_task_assignments.getD i (-1)).toNat)

/-- A fresh row of `task_information` for a configured task
(`_generate_task_info_dataframe`): default estimates, `remaining_to_do=True`. -/
def mk_task_row (a m : Int) : TaskRow :=
  { args := a, metadata := m, runtime := none, memory := none,
    expected_runtime := 1, expected_memory := 1/10, completion_time := 0,
    remaining_to_do := true }

/-- `_generate_task_info_dataframe`.  `log = some rows` models an existing
`<run_name>_completed_tasks.csv` with those rows, `none` a missing file.
Returns the concatenated dataframe and the `write_header` flag. -/
def generate_task_info_dataframe (cfg : Config) (log : Option (List TaskRow)) :
    Except RunError (List TaskRow × Bool) :=
  let completed_tasks : List Int := (log.getD []).map (fun r => r.args)
  let not_completed :=
    (cfg.args.zip cfg.metadata).filter (fun p => decide (p.1 ∉ completed_tasks))
  if not_completed.length = 0 then
    Except.error RunError.noUncompletedTasks
  else
    Except.ok ((log.getD []) ++ not_completed.map (fun p => mk_task_row p.1 p.2),
      log.isNone)

/-- `self.current_max_threads` after `__init__`: assigned (to 1) only when
`benchmarking_tasks > 0`. -/
def initCap (benchmarking_tasks : Nat) : Option Nat :=
  if benchmarking_tasks > 0 then some 1 else none

/-- `SubprocessHandler.__init__` (the state-relevant part). -/
def init_state (cfg : Config) (log : Option (List TaskRow)) :
    Except RunError SchedState := do
  let res ← generate_task_info_dataframe cfg log
  Except.ok
    { current_task_assignments := List.replicate cfg.max_threads (-1),
      task_information := res.1,
      processes := List.replicate cfg.max_threads default_process_dict,
      tasks_total := cfg.args.length,
      tasks_completed := 0,
      current_max_threads := initCap cfg.benchmarking_tasks,
      process_cpu_usage := List.replicate cfg.max_threads 0,
      process_memory_usage := List.replicate cfg.max_threads 0,
      total_cpu_usage := 0,
      total_memory_usage := 0,
      expected_memory_usage := 0 }

/-- `_close_subprocess`.  The CSV append performed in the `completed` branch
is an external side effect and carries no in-memory state. -/
def close_subprocess (env : TickEnv) (index_to_close : Nat) (completed : Bool)
    (st : SchedState) : Except RunError SchedState := do
  let previous := st.current_task_assignments.getD index_to_close (-1)
  let row ← df_loc_row st.task_information previous
  let slot := st.processes.getD index_to_close default_process_dict
  let tasks' ←
    if completed then do
      let stime ← slot.start_time.elim
        (Except.error (RunError.keyError "process-start_time")) Except.ok
      Except.ok (st.task_information.set previous.toNat
        { row with runtime := some (env.now - stime), completion_time := env.now,
                   remaining_to_do := false })
    else
      Except.ok (st.task_information.set previous.toNat
        { row with remaining_to_do := true })
  Except.ok
    { st with
      current_task_assignments := st.current_task_assignments.set index_to_close (-1),
      tasks_completed := st.tasks_completed + 1,
      expected_memory_usage := st.expected_memory_usage - row.expected_memory,
      process_cpu_usage := st.process_cpu_usage.set index_to_close 0,
      process_memory_usage := st.process_memory_usage.set index_to_close 0,
      task_information := tasks',
      processes := st.processes.set index_to_close default_process_dict }

/-- `_kill_subprocess`: `self.processes[index]['process'].kill()` (an
`IndexError` on a bad slot index, an `AttributeError` on a free slot whose
`'process'` entry is `None`), then `_close_subprocess(index, completed=False)`
and recording the kill message as the slot update. -/
def kill_subprocess (env : TickEnv) (index_to_kill : Nat) (message : String)
    (st : SchedState) : Except RunError SchedState := do
  let slot ← (st.processes.get? index_to_kill).elim
    (Except.error RunError.indexError) Except.ok
  let _ ← slot.proc.elim (Except.error RunError.attributeError) Except.ok
  let st' ← close_subprocess env index_to_kill false st
  Except.ok
    { st' with
      processes := st'.processes.set index_to_kill
        { (st'.processes.getD index_to_kill default_process_dict) with
          update := message } }

/-- The `memory`-column update of `_check_memory_usage`: for each running
slot, replace the task's `memory` cell by the new sample when the sample is
strictly higher (a comparison against `np.nan` is `False`, so a `nan` cell is
never replaced). -/
def bump_memory (env : TickEnv) (assignments : List Int) (slots : List Nat)
    (tasks : List TaskRow) : List TaskRow :=
  slots.foldl
    (fun acc i =>
      let t := (assignments.getD i (-1)).toNat
      let row := acc.getD t default
      match row.memory with
      | none => acc
      | some old =>
        if env.mem i > old then acc.set t { row with memory := some (env.mem i) }
        else acc)
    tasks

/-- The sampling prefix of `_check_memory_usage`: re-zero the per-slot usage
arrays, sample every occupied slot via psutil, recompute the totals, and bump
the `memory` column of every running task. -/
def sample_state (cfg : Config) (env : TickEnv) (st : SchedState) : SchedState :=
  let occupied : Nat → Bool :=
    fun i => decide (st.current_task_assignments.getD i (-1) ≠ -1)
  let cpu := (List.range cfg.max_threads).map (fun i => if occupied i then env.cpu i else 0)
  let mem := (List.range cfg.max_threads).map (fun i => if occupied i then env.mem i else 0)
  { st with
    process_cpu_usage := cpu,
    process_memory_usage := mem,
    total_cpu_usage := cpu.sum,
    total_memory_usage := mem.sum,
    task_information :=
      bump_memory env st.current_task_assignments (running_process_slots st)
        st.task_information }

/-- The `while self.total_memory_usage > self.config['max_memory']` eviction
loop of `_check_memory_usage`, transcribed statement by statement.  Its first
body statement selects
`self.task_information.loc[running_tasks, 'start_time'].idxmax()`. -/
def eviction_loop (cfg : Config) (env : TickEnv) (prev : List (Int × ℚ)) :
    Nat → SchedState → Except RunError SchedState
  | 0, _ => Except.error RunError.nonTermination
  | fuel + 1, st =>
    if st.total_memory_usage ≤ cfg.max_memory then Except.ok st
    else do
      let series ← df_loc_rows_col st.task_information (running_task_ids st) "start_time"
      let index_of_task_to_kill ← series_idxmax series
      let row ← df_loc_row st.task_information (Int.ofNat index_of_task_to_kill)
      let index_of_process_to_kill ←
        (st.current_task_assignments.findIdx? (fun a => a == row.args)).elim
          (Except.error RunError.indexError) Except.ok
      let st1 :=
        { st with
          total_memory_usage := st.total_memory_usage -
            st.process_memory_usage.getD index_of_process_to_kill 0 }
      let st2 ← kill_subprocess env index_of_task_to_kill "KILLED due to overmemory" st1
      if (running_process_slots st2).length = 0 then
        Except.error (RunError.allProcessesKilled prev)
      else
        eviction_loop cfg env prev fuel st2

/-- `_check_memory_usage`: sample, then mitigate if the total observed memory
exceeds the hard limit (raise when configured to, otherwise run the eviction
loop; `prev` records the running tasks and their last observed memory for the
"killed everything" error message). -/
def check_memory_usage (cfg : Config) (env : TickEnv) (st : SchedState) :
    Except RunError SchedState :=
  let st1 := sample_state cfg env st
  if st1.total_memory_usage > cfg.max_memory_hard_limit then
    if cfg.overmemory_raise_error then Except.error RunError.overmemoryRaise
    else
      let prev := (running_process_slots st1).map (fun i =>
        (st1.current_task_assignments.getD i (-1), st1.process_memory_usage.getD i 0))
      eviction_loop cfg env prev (st1.processes.length + 1) st1
  else Except.ok st1

/-- The non-blocking pipe drain: `while pipe.poll(): update = pipe.recv()`
keeps the last queued message (or the previous update if none is queued). -/
def drained_update (queued : List String) (old : String) : String :=
  queued.foldl (fun _ m => m) old

/-- The body of the `for i, a_process in enumerate(self.processes)` loop of
`_poll_subprocesses`, threading the `(completed, running, state)`
accumulator. -/
def poll_slot (env : TickEnv) (i : Nat) (acc : Nat × Nat × SchedState) :
    Except RunError (Nat × Nat × SchedState) :=
  let (completed, running, st) := acc
  let slot := st.processes.getD i default_process_dict
  match slot.proc with
  | none => Except.ok acc
  | some _ =>
    match env.exitcode i with
    | some exitcode =>
      if exitcode = 0 then do
        let st' ← close_subprocess env i true st
        Except.ok (completed + 1, running + 1, st')
      else
        Except.error (RunError.processFailed i (st.current_task_assignments.getD i (-1)))
    | none =>
      Except.ok (completed, running + 1,
        { st with
          processes := st.processes.set i
            { slot with update := drained_update (env.updates i) slot.update } })

/-- The benchmark-throttle update at the end of `_poll_subprocesses`:
`if self.tasks_completed > self.config['benchmarking_tasks']:
self.current_max_threads = self.config['max_threads']`. -/
def updateCap (benchmarking_tasks max_threads tasks_completed : Nat)
    (cur : Option Nat) : Option Nat :=
  if tasks_completed > benchmarking_tasks then some max_threads else cur

/-- `_poll_subprocesses`: scan every slot, then possibly lift the benchmark
throttle.  Returns `(completed_subprocesses, running_subprocesses, state)`. -/
def poll_subprocesses (cfg : Config) (env : TickEnv) (st : SchedState) :
    Except RunError (Nat × Nat × SchedState) := do
  let res ← (List.range st.processes.length).foldlM
    (fun acc i => poll_slot env i acc) (0, 0, st)
  Except.ok (res.1, res.2.1,
    { res.2.2 with
      current_max_threads := updateCap cfg.benchmarking_tasks cfg.max_threads
        res.2.2.tasks_completed res.2.2.current_max_threads })

/-- `np.logical_and(remaining_to_do, expected_memory < available).idxmax()`
when the count is nonzero: the first (ledger-order) valid task. -/
def firstValidTask (tasks : List TaskRow) (available : ℚ) : Option Nat :=
  tasks.findIdx? (fun r => r.remaining_to_do && decide (r.expected_memory < available))

/-- `(self.current_task_assignments == -1).nonzero()[0][0]` as an `Option`:
the lowest-index free slot. -/
def firstFreeSlot (assignments : List Int) : Option Nat :=
  assignments.findIdx? (fun a => a == -1)

/-- `_start_subprocess`: claim the lowest free slot (IndexError if none),
record the assignment, mark the task admitted, add its expected memory, and
create the slot's process dict entries (pipe, logger and psutil handle carry
no model state; `start_time = time.time()`). -/
def start_subprocess (env : TickEnv) (task_index : Nat) (st : SchedState) :
    Except RunError SchedState := do
  let subprocess_to_start ← (firstFreeSlot st.current_task_assignments).elim
    (Except.error RunError.indexError) Except.ok
  let row ← df_loc_row st.task_information (Int.ofNat task_index)
  Except.ok
    { st with
      current_task_assignments :=
        st.current_task_assignments.set subprocess_to_start (Int.ofNat task_index),
      task_information :=
        st.task_information.set task_index { row with remaining_to_do := false },
      expected_memory_usage := st.expected_memory_usage + row.expected_memory,
      processes := st.processes.set subprocess_to_start
        { update := "Initialising from main...", proc := some (),
          start_time := some env.now } }

/-- The `while available_memory > 0 and subprocesses_started <
max_subprocesses_to_start` loop of `_create_subprocesses`; the fuel is the
remaining number of allowed starts, so `fuel = 0` is the
`subprocesses_started < max_subprocesses_to_start` exit. -/
def admission_loop (env : TickEnv) :
    ℚ → Nat → SchedState → Except RunError (Nat × SchedState)
  | _, 0, st => Except.ok (0, st)
  | available, fuel + 1, st =>
    if available > 0 then
      match firstValidTask st.task_information available with
      | none => Except.ok (0, st)
      | some task_index => do
        let st' ← start_subprocess env task_index st
        let row' ← df_loc_row st'.task_information (Int.ofNat task_index)
        let res ← admission_loop env (available - row'.expected_memory) fuel st'
        Except.ok (res.1 + 1, res.2)
    else Except.ok (0, st)

/-- `_create_subprocesses`: compute the available memory and the number of
subprocesses that may still start (reading `self.current_max_threads`, which
raises `AttributeError` when it was never assigned), then run the first-fit
admission loop.  Returns `(subprocesses_started, state)`. -/
def create_subprocesses (cfg : Config) (env : TickEnv) (st : SchedState) :
    Except RunError (Nat × SchedState) := do
  let running_subprocesses := occCount st.current_task_assignments
  let available_memory :=
    cfg.max_memory - max st.total_memory_usage st.expected_memory_usage
  let cap ← st.current_max_threads.elim (Except.error RunError.attributeError) Except.ok
  let max_subprocesses_to_start : Int := (cap : Int) - (running_subprocesses : Int)
  admission_loop env available_memory max_subprocesses_to_start.toNat st

/-- One iteration of the `while self.tasks_completed < self.tasks_total` loop
of `_run_with_multiline_console` (rendering and sleeping are external;
`_fit_resource_usage` is `pass` in the source). -/
def tick (cfg : Config) (env : TickEnv) (st : SchedState) :
    Except RunError SchedState := do
  let st1 ← check_memory_usage cfg env st
  let res ← poll_subprocesses cfg env st1
  if res.1 > 0 ∨ res.2.1 = 0 then
    let res2 ← create_subprocesses cfg env res.2.2
    Except.ok res2.2
  else Except.ok res.2.2

/-- States of the handler reachable from startup by iterations of the run
loop, for an arbitrary sequence of external inputs. -/
inductive Reachable (cfg : Config) (log : Option (List TaskRow)) : SchedState → Prop where
  | init : ∀ st, init_state cfg log = Except.ok st → Reachable cfg log st
  | step : ∀ st env st', Reachable cfg log st → tick cfg env st = Except.ok st' →
      Reachable cfg log st'

/-- The value of `current_max_threads` over a run in which `completed n`
tasks have been counted completed when tick `n` executes its poll step
(`completed` is monotone over any real run since `tasks_completed` is only
ever incremented). -/
def capTrace (b m : Nat) (completed : Nat → Nat) : Nat → Option Nat
  | 0 => initCap b
  | n + 1 => updateCap b m (completed n) (capTrace b m completed n)

/-- The tasks of the ledger that are runnable: rows with
`remaining_to_do = True`, identified by their `args` value. -/
def runnableArgs (tasks : List TaskRow) : List Int :=
  (tasks.filter (fun r => r.remaining_to_do)).map (fun r => r.args)

/-!
Spec-side admission algorithm, for the refinement claim C3.  The following
definitions follow the specification's words, to be compared with
`create_subprocesses` / `start_subprocess` above (which were translated from
the source): "compute `available_memory = max_memory − max(observed, expected)`;
while there is a free slot under the effective concurrency cap and
`available_memory > 0`: pick the first eligible task (ledger order) whose
`expected_memory < available_memory`; assign it to the lowest-index free
slot; start its Process Handle; subtract its `expected_memory`; mark it
admitted.  Stop when no slot is free, the cap is reached, or no eligible
task fits."
-/

/-- Spec: the lowest-index free slot, if any slot is free. -/
def spec_free_slot (assignments : List Int) : Option Nat :=
  assignments.findIdx? (fun a => a == -1)

/-- Spec: the first task in ledger order with `remaining_to_do = true` and
`expected_memory` strictly below the available memory. -/
def spec_eligible_task (tasks : List TaskRow) (available : ℚ) : Option Nat :=
  tasks.findIdx? (fun r => r.remaining_to_do && decide (r.expected_memory < available))

/-- Spec: admit task `task_index` into slot `slot`: record the assignment,
start its process handle, and mark it admitted. -/
def spec_assign (env : TickEnv) (task_index slot : Nat) (st : SchedState) : SchedState :=
  { st with
    current_task_assignments :=
      st.current_task_assignments.set slot (Int.ofNat task_index),
    task_information :=
      st.task_information.set task_index
        { (st.task_information.getD task_index default) with remaining_to_do := false },
    expected_memory_usage := st.expected_memory_usage +
      (st.task_information.getD task_index default).expected_memory,
    processes := st.processes.set slot
      { update := "Initialising from main...", proc := some (),
        start_time := some env.now } }

/-- Spec: the admission loop.  The fuel argument is the remaining capacity
`cap − occupied` and only forces termination; the loop's own stopping
conditions (cap reached, no free slot, no memory, no eligible task) are all
checked each iteration. -/
def spec_admission_loop (env : TickEnv) (cap : Nat) :
    ℚ → Nat → SchedState → Except RunError SchedState
  | _, 0, st => Except.ok st
  | available, fuel + 1, st =>
    if occCount st.current_task_assignments < cap ∧ available > 0 then
      match spec_free_slot st.current_task_assignments,
            spec_eligible_task st.task_information available with
      | some slot, some task_index =>
        spec_admission_loop env cap
          (available - (st.task_information.getD task_index default).expected_memory)
          fuel (spec_assign env task_index slot st)
      | _, _ => Except.ok st
    else Except.ok st

/-- Spec: one admission step, per the claim's words (reading the effective
concurrency cap fails in the same way as the source when the attribute is
missing). -/
def spec_admission (cfg : Config) (env : TickEnv) (st : SchedState) :
    Except RunError SchedState := do
  let cap ← st.current_max_threads.elim (Except.error RunError.attributeError) Except.ok
  let available := cfg.max_memory - max st.total_memory_usage st.expected_memory_usage
  spec_admission_loop env cap available
    ((cap : Int) - (occCount st.current_task_assignments : Int)).toNat st

/-- Number of ledger rows that are not runnable (`remaining_to_do = False`):
previously completed rows plus rows currently admitted or closed. -/
def notRemCount (tasks : List TaskRow) : Nat :=
  tasks.countP (fun r => !r.remaining_to_do)

/-- The inductive invariant of the scheduler state.  `P` is the number of
rows loaded from the durable completed-task log (all of which have
`remaining_to_do = False`). -/
structure Inv (cfg : Config) (P : Nat) (st : SchedState) : Prop where
  len_assign : st.current_task_assignments.length = cfg.max_threads
  len_procs : st.processes.length = cfg.max_threads
  total_eq : st.tasks_total = cfg.args.length
  tasks_le : st.task_information.length ≤ P + st.tasks_total
  bound : ∀ a ∈ st.current_task_assignments,
    a = -1 ∨ (0 ≤ a ∧ a.toNat < st.task_information.length)
  proc_iff : ∀ i, i < cfg.max_threads →
    ((st.current_task_assignments.getD i (-1) ≠ -1) ↔
      ((st.processes.getD i default_process_dict).proc.isSome = true))
  start_time_some : ∀ i, i < cfg.max_threads →
    (st.processes.getD i default_process_dict).proc.isSome = true →
    (st.processes.getD i default_process_dict).start_time.isSome = true
  nodup : ∀ i j, i < cfg.max_threads → j < cfg.max_threads → i ≠ j →
    st.current_task_assignments.getD i (-1) ≠ -1 →
    st.current_task_assignments.getD i (-1) ≠ st.current_task_assignments.getD j (-1)
  assigned_not_remaining : ∀ i, i < cfg.max_threads →
    st.current_task_assignments.getD i (-1) ≠ -1 →
    (st.task_information.getD (st.current_task_assignments.getD i (-1)).toNat
      default).remaining_to_do = false
  count_eq : notRemCount st.task_information =
    P + occCount st.current_task_assignments + st.tasks_completed

/-!
Concrete inputs used by the claim theorems, their counterexamples and their
witnesses.
-/

/-- C1 failing input, configuration: soft budget 1 GB, hard limit 2 GB,
mitigation (not raising) configured. -/
def c1cfg : Config :=
  { max_threads := 1, max_memory := 1, max_memory_hard_limit := 2,
    overmemory_raise_error := false, benchmarking_tasks := 1,
    args := [0], metadata := [0] }

/-- C1 failing input, tick inputs: the single running process samples 5 GB. -/
def c1env : TickEnv :=
  { cpu := fun _ => 0, mem := fun _ => 5, exitcode := fun _ => none,
    updates := fun _ => [], now := 3 }

/-- C1 failing input, state: one occupied slot running task 0. -/
def c1st : SchedState :=
  { current_task_assignments := [0],
    task_information := [{ mk_task_row 0 0 with remaining_to_do := false }],
    processes := [{ update := "-", proc := some (), start_time := some 1 }],
    tasks_total := 1, tasks_completed := 0, current_max_threads := some 1,
    process_cpu_usage := [0], process_memory_usage := [0],
    total_cpu_usage := 0, total_memory_usage := 0, expected_memory_usage := 1/10 }

/-- C2 failing input, configuration: the specification's scenario — soft
budget 1.0, hard limit breached. -/
def c2cfg : Config :=
  { max_threads := 3, max_memory := 1, max_memory_hard_limit := 1,
    overmemory_raise_error := false, benchmarking_tasks := 3,
    args := [0, 1, 2], metadata := [0, 0, 0] }

/-- C2 failing input, tick inputs: running tasks sample 0.5, 0.5 and 4.0 GB. -/
def c2env : TickEnv :=
  { cpu := fun _ => 0, mem := fun i => if i = 2 then 4 else 1/2,
    exitcode := fun _ => none, updates := fun _ => [], now := 9 }

/-- C2 failing input, state: three occupied slots (started at times 1, 2, 3). -/
def c2st : SchedState :=
  { current_task_assignments := [0, 1, 2],
    task_information :=
      [{ mk_task_row 0 0 with remaining_to_do := false },
       { mk_task_row 1 0 with remaining_to_do := false },
       { mk_task_row 2 0 with remaining_to_do := false }],
    processes :=
      [{ update := "-", proc := some (), start_time := some 1 },
       { update := "-", proc := some (), start_time := some 2 },
       { update := "-", proc := some (), start_time := some 3 }],
    tasks_total := 3, tasks_completed := 0, current_max_threads := some 1,
    process_cpu_usage := [0, 0, 0], process_memory_usage := [0, 0, 0],
    total_cpu_usage := 0, total_memory_usage := 0, expected_memory_usage := 3/10 }

/-- C3 witness configuration: the specification's scenario — `max_threads=2`,
two tasks of expected memory 1 under `max_memory=3`. -/
def c3cfg : Config :=
  { max_threads := 2, max_memory := 3, max_memory_hard_limit := 4,
    overmemory_raise_error := false, benchmarking_tasks := 0,
    args := [0, 1], metadata := [0, 0] }

/-- C3 witness tick inputs. -/
def c3env : TickEnv :=
  { cpu := fun _ => 0, mem := fun _ => 0, exitcode := fun _ => none,
    updates := fun _ => [], now := 4 }

/-- C3 witness state: both slots free, both tasks runnable with expected
memory 1, cap `max_threads = 2`. -/
def c3st : SchedState :=
  { current_task_assignments := [-1, -1],
    task_information :=
      [{ mk_task_row 0 0 with expected_memory := 1 },
       { mk_task_row 1 0 with expected_memory := 1 }],
    processes := [default_process_dict, default_process_dict],
    tasks_total := 2, tasks_completed := 0, current_max_threads := some 2,
    process_cpu_usage := [0, 0], process_memory_usage := [0, 0],
    total_cpu_usage := 0, total_memory_usage := 0, expected_memory_usage := 0 }

/-- C4 counterexample completion counts: exactly one task (the
`benchmarking_tasks`-th) has completed by the time tick 0 polls. -/
def c4completed : Nat → Nat := fun _ => 1

/-- C4 witness completion counts: `n` tasks have completed when tick `n`
polls. -/
def c4counts : Nat → Nat := fun n => n

/-- C5/C8 witness configuration. -/
def w5cfg : Config :=
  { max_threads := 1, max_memory := 8, max_memory_hard_limit := 9,
    overmemory_raise_error := false, benchmarking_tasks := 1,
    args := [7], metadata := [0] }

/-- C5 witness, tick-1 inputs (nothing running yet). -/
def w5env1 : TickEnv :=
  { cpu := fun _ => 0, mem := fun _ => 0, exitcode := fun _ => none,
    updates := fun _ => [], now := 10 }

/-- C5 witness, tick-2 inputs: the worker samples 1 GB and exits with code 0. -/
def w5env2 : TickEnv :=
  { cpu := fun _ => 0, mem := fun _ => 1, exitcode := fun _ => some 0,
    updates := fun _ => [], now := 20 }

/-- C5 witness: the startup state of `w5cfg` (no log file). -/
def w5st0 : SchedState :=
  { current_task_assignments := [-1],
    task_information := [mk_task_row 7 0],
    processes := [default_process_dict],
    tasks_total := 1, tasks_completed := 0, current_max_threads := some 1,
    process_cpu_usage := [0], process_memory_usage := [0],
    total_cpu_usage := 0, total_memory_usage := 0, expected_memory_usage := 0 }

/-- C5 witness: the state after tick 1 (task 7 admitted into slot 0). -/
def w5st1 : SchedState :=
  { current_task_assignments := [0],
    task_information := [{ mk_task_row 7 0 with remaining_to_do := false }],
    processes := [{ update := "Initialising from main...", proc := some (),
                    start_time := some 10 }],
    tasks_total := 1, tasks_completed := 0, current_max_threads := some 1,
    process_cpu_usage := [0], process_memory_usage := [0],
    total_cpu_usage := 0, total_memory_usage := 0, expected_memory_usage := 1/10 }

/-- C5 witness: the state after tick 2 (task 7 closed; run complete). -/
def w5st2 : SchedState :=
  { current_task_assignments := [-1],
    task_information := [{ mk_task_row 7 0 with
      runtime := some 10, completion_time := 20, remaining_to_do := false }],
    processes := [default_process_dict],
    tasks_total := 1, tasks_completed := 1, current_max_threads := some 1,
    process_cpu_usage := [0], process_memory_usage := [0],
    total_cpu_usage := 0, total_memory_usage := 1, expected_memory_usage := 0 }

/-- C8 witness configuration. -/
def w8cfg : Config :=
  { max_threads := 2, max_memory := 4, max_memory_hard_limit := 5,
    overmemory_raise_error := false, benchmarking_tasks := 1,
    args := [3, 4], metadata := [0, 0] }

/-- C8 witness tick inputs. -/
def w8env : TickEnv :=
  { cpu := fun _ => 0, mem := fun _ => 0, exitcode := fun _ => none,
    updates := fun _ => [], now := 5 }

/-- C8 witness: the startup state of `w8cfg`. -/
def w8st0 : SchedState :=
  { current_task_assignments := [-1, -1],
    task_information := [mk_task_row 3 0, mk_task_row 4 0],
    processes := [default_process_dict, default_process_dict],
    tasks_total := 2, tasks_completed := 0, current_max_threads := some 1,
    process_cpu_usage := [0, 0], process_memory_usage := [0, 0],
    total_cpu_usage := 0, total_memory_usage := 0, expected_memory_usage := 0 }

/-- C8 witness: the state after one tick (task 0 admitted into slot 0 under
the benchmark cap of 1). -/
def w8st1 : SchedState :=
  { current_task_assignments := [0, -1],
    task_information := [{ mk_task_row 3 0 with remaining_to_do := false },
                         mk_task_row 4 0],
    processes := [{ update := "Initialising from main...", proc := some (),
                    start_time := some 5 }, default_process_dict],
    tasks_total := 2, tasks_completed := 0, current_max_threads := some 1,
    process_cpu_usage := [0, 0], process_memory_usage := [0, 0],
    total_cpu_usage := 0, total_memory_usage := 0, expected_memory_usage := 1/10 }

/-- C7 witness configuration: re-running with `args=[5, 6]`. -/
def c7cfg : Config :=
  { max_threads := 1, max_memory := 1, max_memory_hard_limit := 1,
    overmemory_raise_error := false, benchmarking_tasks := 0,
    args := [5, 6], metadata := [0, 0] }

/-- C7 witness: the durable log row recording that `args=5` completed. -/
def c7logrow : TaskRow :=
  { args := 5, metadata := 0, runtime := some 1, memory := some 1,
    expected_runtime := 1, expected_memory := 1/10, completion_time := 2,
    remaining_to_do := false }

/-- C7 witness: the dataframe produced for `c7cfg` against a log containing
`args=5`. -/
def c7rows : List TaskRow := [c7logrow, mk_task_row 6 0]

/-- C10 witness configuration: `benchmarking_tasks = 0`. -/
def c10cfg : Config :=
  { max_threads := 2, max_memory := 4, max_memory_hard_limit := 5,
    overmemory_raise_error := false, benchmarking_tasks := 0,
    args := [1], metadata := [0] }

/-- C10 witness tick inputs. -/
def c10env : TickEnv :=
  { cpu := fun _ => 0, mem := fun _ => 0, exitcode := fun _ => none,
    updates := fun _ => [], now := 5 }

/-- C10 witness: the startup state of `c10cfg`. -/
def c10st0 : SchedState :=
  { current_task_assignments := [-1, -1],
    task_information := [mk_task_row 1 0],
    processes := [default_process_dict, default_process_dict],
    tasks_total := 1, tasks_completed := 0, current_max_threads := none,
    process_cpu_usage := [0, 0], process_memory_usage := [0, 0],
    total_cpu_usage := 0, total_memory_usage := 0, expected_memory_usage := 0 }

end SMP

namespace SmartProcess

/-!
Embedding of `src/src/smartmultiprocessing/process.py`.

A `psutil.Process` handle is modelled by `PsProc`: `exists_` says whether the
OS process still exists when the operation runs; `cpu`, `pss` and `rss` are
the values psutil would report for it.  A psutil call on a vanished process
raises `NoSuchProcess`, modelled by `Except`.

For `SmartProcess.get_result` the relevant state of the handle is whether
result capture was enabled (`fetch_result`), the phase of the underlying
process (`running`, or `exited code`), and the queue of values sitting in the
result pipe (the worker sends at most one; a consumed value is popped).  The
bounded wait `result_pipe.poll(pipe_timeout)` is modelled by the input
`poll_ok : Bool`, which can be `true` only if a value is actually queued
(`poll` never succeeds on an empty pipe; it can time out — `poll_ok = false`
— even when a value would arrive later).
-/

/-- Exceptions of the process module: the three errors of
`smartmultiprocessing.errors` raised in `get_result`/`is_finished`, the
`ValueError` for a handle without result capture, and psutil's
`NoSuchProcess`. -/
inductive SPError where
  | valueError
  | stillRunning
  | processFailed
  | noResult
  | noSuchProcess
  deriving DecidableEq, Repr

/-- A psutil process handle at the moment an operation runs. -/
structure PsProc where
  exists_ : Bool
  cpu : ℚ
  pss : ℚ
  rss : ℚ
  deriving DecidableEq, Repr

/-- `psutil.Process.cpu_percent`: raises `NoSuchProcess` if the process has
exited. -/
def ps_cpu_percent (p : PsProc) : Except SPError ℚ :=
  if p.exists_ then Except.ok p.cpu else Except.error SPError.noSuchProcess

/-- `psutil.Process.memory_full_info().pss`. -/
def ps_memory_pss (p : PsProc) : Except SPError ℚ :=
  if p.exists_ then Except.ok p.pss else Except.error SPError.noSuchProcess

/-- `psutil.Process.memory_info().rss`. -/
def ps_memory_rss (p : PsProc) : Except SPError ℚ :=
  if p.exists_ then Except.ok p.rss else Except.error SPError.noSuchProcess

/-- `psutil.Process.terminate` / `psutil.Process.kill` on a child. -/
def ps_stop (p : PsProc) : Except SPError Unit :=
  if p.exists_ then Except.ok () else Except.error SPError.noSuchProcess

/-- `if_exists_cpu_percent`: the `try/except NoSuchProcess: return 0`
wrapper. -/
def if_exists_cpu_percent (p : PsProc) : ℚ :=
  match ps_cpu_percent p with
  | Except.ok v => v
  | Except.error _ => 0

/-- `if_exists_memory_pss`. -/
def if_exists_memory_pss (p : PsProc) : ℚ :=
  match ps_memory_pss p with
  | Except.ok v => v
  | Except.error _ => 0

/-- `if_exists_memory_rss`. -/
def if_exists_memory_rss (p : PsProc) : ℚ :=
  match ps_memory_rss p with
  | Except.ok v => v
  | Except.error _ => 0

/-- `SmartProcess.memory_usage(children=...)` with the children already
resolved to an explicit list (`_children_in_arg`): the parent's proportional
set size plus the resident set size of every child, each sampled through the
`if_exists` wrappers. -/
def memory_usage (parent : PsProc) (children : List PsProc) : ℚ :=
  (children.map if_exists_memory_rss).foldl (fun a b => a + b)
    (if_exists_memory_pss parent)

/-- `SmartProcess.cpu_usage(interval=None, children=...)` with children
resolved: one summing pass over parent and children. -/
def cpu_usage (parent : PsProc) (children : List PsProc) : ℚ :=
  (children.map if_exists_cpu_percent).foldl (fun a b => a + b)
    (if_exists_cpu_percent parent)

/-- `SmartProcess.terminate(children=...)` with children resolved: terminate
the underlying process (a no-op signal send, which does not raise for an
already exited process), then best-effort terminate every child, swallowing
`NoSuchProcess` per child. -/
def terminate (children : List PsProc) : Except SPError Unit :=
  children.foldlM
    (fun _ c =>
      match ps_stop c with
      | Except.ok _ => Except.ok ()
      | Except.error SPError.noSuchProcess => Except.ok ()
      | Except.error e => Except.error e)
    ()

/-- `SmartProcess.kill(children=...)` with children resolved: same structure
as `terminate` with SIGKILL. -/
def kill (children : List PsProc) : Except SPError Unit :=
  children.foldlM
    (fun _ c =>
      match ps_stop c with
      | Except.ok _ => Except.ok ()
      | Except.error SPError.noSuchProcess => Except.ok ()
      | Except.error e => Except.error e)
    ()

/-- Phase of the underlying OS process as observed through
`is_alive` / `exitcode`. -/
inductive Phase where
  | running
  | exited (code : Int)
  deriving DecidableEq, Repr

/-- `SmartProcess.is_finished`: `False` while alive; for an exited process it
raises `ProcessFailedError` on a non-zero (or signal, i.e. negative) exit
code and returns `True` on exit code 0.  (The walrus expression
`exitcode := self.get_exitcode() != 0` binds the boolean, which only garbles
the message text, not the control flow.) -/
def is_finished (phase : Phase) : Except SPError Bool :=
  match phase with
  | Phase.running => Except.ok false
  | Phase.exited code =>
    if code ≠ 0 then Except.error SPError.processFailed else Except.ok true

/-- `SmartProcess.get_result(join=False)`.  `queue` is the content of the
result pipe; on success the received value is returned together with the
remaining pipe content (a second `recv` would consume the next element).
`poll_ok` is the outcome of `result_pipe.poll(pipe_timeout)`; the caller of
the theorem must know `poll_ok = true → queue ≠ []`.  An `EOFError` from
`recv` (closed pipe) is also mapped to `NoResultError` by the source. -/
def get_result {α : Type} (fetch_result : Bool) (phase : Phase)
    (queue : List α) (poll_ok : Bool) : Except SPError (α × List α) :=
  if ¬fetch_result then Except.error SPError.valueError
  else
    match is_finished phase with
    | Except.error e => Except.error e
    | Except.ok finished =>
      if ¬finished then Except.error SPError.stillRunning
      else if ¬poll_ok then Except.error SPError.noResult
      else
        match queue with
        | [] => Except.error SPError.noResult
        | v :: rest => Except.ok (v, rest)

end SmartProcess

/-!
Theorems.  First a collection of helper lemmas about the embedding, then one
theorem per claim (with counterexamples and witnesses where required).
-/

namespace SMP

theorem findIdx?_some_lt {α : Type} {p : α → Bool} {l : List α} {i : Nat}
    (h : l.findIdx? p = some i) : i < l.length :=
  (List.findIdx?_eq_some_iff_findIdx_eq.1 h).1

theorem findIdx?_some_getD {α : Type} {p : α → Bool} {l : List α} {i : Nat} (d : α)
    (h : l.findIdx? p = some i) : p (l.getD i d) = true := by
  obtain ⟨hlt, hidx⟩ := List.findIdx?_eq_some_iff_findIdx_eq.1 h
  subst hidx
  rw [List.getD_eq_getElem?_getD, List.getElem?_eq_getElem hlt]
  exact List.findIdx_getElem

theorem occCount_le_length (l : List Int) : occCount l ≤ l.length :=
  List.countP_le_length _

theorem exists_free_slot {l : List Int} (h : occCount l < l.length) :
    ∃ slot, firstFreeSlot l = some slot ∧ slot < l.length ∧ l.getD slot 0 = -1 := by
  cases hf : l.findIdx? (fun a => a == -1) with
  | none =>
    exfalso
    have hall := List.findIdx?_eq_none_iff.1 hf
    have hlen : occCount l = l.length := by
      refine List.countP_eq_length.2 ?_
      intro a ha
      have hne : a ≠ -1 := by simpa using hall a ha
      simp [hne]
    omega
  | some s =>
    refine ⟨s, by simpa [firstFreeSlot] using hf, findIdx?_some_lt hf, ?_⟩
    have := findIdx?_some_getD (0 : Int) hf
    simpa using this

theorem capTrace_succ_eq (b m : Nat) (completed : Nat → Nat) (n : Nat) :
    capTrace b m completed (n + 1) =
      updateCap b m (completed n) (capTrace b m completed n) := rfl

/-- C4, counterexample: with `benchmarking_tasks = 1` and exactly 1 task
completed when tick 0 polls (`c4completed 0 = 1`, i.e. "that many tasks have
completed"), the claim predicts an effective cap of `max_threads = 4` from
that point on, but the cap after the poll is still 1: the source lifts the
throttle only when `tasks_completed > benchmarking_tasks` holds strictly. -/
theorem claim_C4_counterexample :
    1 ≤ c4completed 0 ∧ capTrace 1 4 c4completed 1 = some 1 ∧
      capTrace 1 4 c4completed 1 ≠ some 4 := by decide

/-- C4, amended: over any run with a monotone completed-task count, the
effective concurrency cap is 1 (when `benchmarking_tasks > 0`) for every tick
at which at most `benchmarking_tasks` tasks have completed, and once the
completed count strictly exceeds `benchmarking_tasks` at some tick, the cap is
`max_threads` at every later tick, permanently (a one-way ratchet). -/
theorem claim_C4_amended (b m : Nat) (completed : Nat → Nat)
    (hmono : Monotone completed) :
    (0 < b → capTrace b m completed 0 = some 1) ∧
    (∀ n, 0 < b → completed n ≤ b → capTrace b m completed (n + 1) = some 1) ∧
    (∀ k n, b < completed k → k ≤ n → capTrace b m completed (n + 1) = some m) := by
  refine ⟨?_, ?_, ?_⟩
  · intro hb
    simp [capTrace, initCap, hb]
  · intro n hb hle
    induction n with
    | zero =>
      simp [capTrace, updateCap, initCap, hb, Nat.not_lt.mpr hle]
    | succ n ih =>
      have hn : completed n ≤ b := le_trans (hmono (Nat.le_succ n)) hle
      rw [capTrace_succ_eq, updateCap, if_neg (by omega)]
      exact ih hn
  · intro k n hk hkn
    have hn : b < completed n := lt_of_lt_of_le hk (hmono hkn)
    rw [capTrace_succ_eq, updateCap, if_pos (by omega)]

/-- C4, witness for the amended theorem: completed counts `0, 1, 2, 3, ...`
with `benchmarking_tasks = 1`, `max_threads = 4`: the cap is 1 after tick 0
(1 task completed = not strictly more than 1) and 4 after tick 2 (2 tasks
completed). -/
theorem claim_C4_amended_witness :
    capTrace 1 4 c4counts 1 = some 1 ∧ capTrace 1 4 c4counts 3 = some 4 := by
  have h := claim_C4_amended 1 4 c4counts (fun _ _ hab => hab)
  exact ⟨h.2.1 0 (by decide) (by decide), h.2.2 2 2 (by decide) (le_refl 2)⟩

end SMP

namespace SmartProcess

theorem if_exists_memory_rss_eq (c : PsProc) :
    if_exists_memory_rss c = if c.exists_ then c.rss else 0 := by
  cases hc : c.exists_ <;> simp [if_exists_memory_rss, ps_memory_rss, hc]

theorem if_exists_memory_pss_eq (c : PsProc) :
    if_exists_memory_pss c = if c.exists_ then c.pss else 0 := by
  cases hc : c.exists_ <;> simp [if_exists_memory_pss, ps_memory_pss, hc]

theorem if_exists_cpu_percent_eq (c : PsProc) :
    if_exists_cpu_percent c = if c.exists_ then c.cpu else 0 := by
  cases hc : c.exists_ <;> simp [if_exists_cpu_percent, ps_cpu_percent, hc]

theorem map_if_exists_memory_rss (children : List PsProc) :
    children.map if_exists_memory_rss =
      children.map (fun c => if c.exists_ then c.rss else 0) := by
  induction children with
  | nil => rfl
  | cons c cs ih => simp [if_exists_memory_rss_eq, ih]

theorem map_if_exists_cpu_percent (children : List PsProc) :
    children.map if_exists_cpu_percent =
      children.map (fun c => if c.exists_ then c.cpu else 0) := by
  induction children with
  | nil => rfl
  | cons c cs ih => simp [if_exists_cpu_percent_eq, ih]

theorem foldl_add_eq (l : List ℚ) : ∀ a : ℚ, l.foldl (fun x y => x + y) a = a + l.sum := by
  induction l with
  | nil => intro a; simp
  | cons x xs ih =>
    intro a
    simp only [List.foldl_cons, List.sum_cons, ih]
    ring

theorem stop_all_ok (children : List PsProc) :
    children.foldlM
      (fun _ c =>
        match ps_stop c with
        | Except.ok _ => Except.ok ()
        | Except.error SPError.noSuchProcess => Except.ok ()
        | Except.error e => Except.error e)
      () = (Except.ok () : Except SPError Unit) := by
  induction children with
  | nil => rfl
  | cons c cs ih =>
    rw [List.foldlM_cons]
    cases hc : c.exists_ <;> simp [ps_stop, hc] <;> exact ih

/-- C6: the result protocol of `SmartProcess.get_result`.  Without result
capture the call is a caller error (`ValueError`); before exit it raises
`StillRunning`; after a non-zero (including signal-negative) exit it raises
`ProcessFailed`; after a zero exit it raises `NoResult` when the pipe wait
timed out or nothing is queued (never sent, or already consumed); after a
zero exit with a value queued it returns exactly that value, and the
remaining queue is what a second call would see — in particular after a
single send the second call finds the empty queue and raises `NoResult`. -/
theorem claim_C6 (α : Type) (v : α) (rest : List α) (queue : List α) (code : Int)
    (poll_ok : Bool) (phase : Phase) (hcode : code ≠ 0) :
    get_result false phase queue poll_ok = Except.error SPError.valueError ∧
    get_result true Phase.running queue poll_ok = Except.error SPError.stillRunning ∧
    get_result true (Phase.exited code) queue poll_ok =
      Except.error SPError.processFailed ∧
    get_result true (Phase.exited 0) queue false = Except.error SPError.noResult ∧
    get_result true (Phase.exited 0) ([] : List α) poll_ok =
      Except.error SPError.noResult ∧
    get_result true (Phase.exited 0) (v :: rest) true = Except.ok (v, rest) ∧
    (rest = [] →
      get_result true (Phase.exited 0) rest poll_ok = Except.error SPError.noResult) := by
  refine ⟨?_, ?_, ?_, ?_, ?_, ?_, ?_⟩
  · simp [get_result]
  · simp [get_result, is_finished]
  · simp [get_result, is_finished, hcode]
  · simp [get_result, is_finished]
  · cases poll_ok <;> simp [get_result, is_finished]
  · simp [get_result, is_finished]
  · intro hrest
    subst hrest
    cases poll_ok <;> simp [get_result, is_finished]

/-- C6, witness: concrete protocol runs — a signal-terminated exit (`-9`)
raises `ProcessFailed` even with a value queued, and a zero exit with a
single queued value returns it, leaving the empty queue for a second call. -/
theorem claim_C6_witness :
    get_result true (Phase.exited (-9)) ([1] : List Int) false =
      Except.error SPError.processFailed ∧
    get_result true (Phase.exited 0) ([42] : List Int) true = Except.ok (42, []) := by
  have h := claim_C6 Int 42 [] [1] (-9) false Phase.running (by decide)
  exact ⟨h.2.2.1, h.2.2.2.2.2.1⟩

/-- C9: operations against already-exited processes are safe.  `terminate`
and `kill` never raise regardless of which children have exited (per-child
failures are swallowed); memory and CPU sampling never raise and count every
exited process — parent or child — as contributing exactly zero. -/
theorem claim_C9 (parent : PsProc) (children : List PsProc) :
    terminate children = Except.ok () ∧
    kill children = Except.ok () ∧
    memory_usage parent children =
      (if parent.exists_ then parent.pss else 0) +
        (children.map (fun c => if c.exists_ then c.rss else 0)).sum ∧
    cpu_usage parent children =
      (if parent.exists_ then parent.cpu else 0) +
        (children.map (fun c => if c.exists_ then c.cpu else 0)).sum ∧
    (∀ c ∈ children, c.exists_ = false →
      if_exists_memory_rss c = 0 ∧ if_exists_cpu_percent c = 0) := by
  refine ⟨stop_all_ok children, stop_all_ok children, ?_, ?_, ?_⟩
  · rw [memory_usage, foldl_add_eq, map_if_exists_memory_rss, if_exists_memory_pss_eq]
  · rw [cpu_usage, foldl_add_eq, map_if_exists_cpu_percent, if_exists_cpu_percent_eq]
  · intro c _ hc
    simp [if_exists_memory_rss_eq, if_exists_cpu_percent_eq, hc]

end SmartProcess

namespace SMP

theorem eviction_loop_keyError (cfg : Config) (env : TickEnv)
    (prev : List (Int × ℚ)) (fuel : Nat) (st : SchedState)
    (h : ¬ st.total_memory_usage ≤ cfg.max_memory) :
    eviction_loop cfg env prev (fuel + 1) st =
      Except.error (RunError.keyError "start_time") := by
  unfold eviction_loop
  rw [if_neg h]
  have hcol : df_loc_rows_col st.task_information (running_task_ids st) "start_time" =
      Except.error (RunError.keyError "start_time") := by
    simp [df_loc_rows_col, dfColumns]
  rw [hcol]
  rfl

theorem eviction_loop_ok {cfg : Config} {env : TickEnv} {prev : List (Int × ℚ)}
    {fuel : Nat} {st out : SchedState}
    (h : eviction_loop cfg env prev fuel st = Except.ok out) : out = st := by
  cases fuel with
  | zero => exact absurd h (by simp [eviction_loop])
  | succ n =>
    by_cases hm : st.total_memory_usage ≤ cfg.max_memory
    · have hstep : eviction_loop cfg env prev (n + 1) st = Except.ok st := by
        unfold eviction_loop
        rw [if_pos hm]
      rw [hstep] at h
      cases h
      rfl
    · rw [eviction_loop_keyError cfg env prev n st hm] at h
      cases h

theorem check_memory_usage_ok {cfg : Config} {env : TickEnv} {st st' : SchedState}
    (h : check_memory_usage cfg env st = Except.ok st') :
    st' = sample_state cfg env st := by
  simp only [check_memory_usage] at h
  by_cases h1 : (sample_state cfg env st).total_memory_usage > cfg.max_memory_hard_limit
  · rw [if_pos h1] at h
    by_cases h2 : cfg.overmemory_raise_error = true
    · rw [if_pos h2] at h
      cases h
    · rw [if_neg h2] at h
      exact eviction_loop_ok h
  · rw [if_neg h1] at h
    cases h
    rfl

/-- C1: code evaluation at the failing input (one occupied slot observed at
5 GB against a soft budget of 1 GB and hard limit of 2 GB, mitigation
configured).  Instead of evicting the most recently started slot, the code
reads `task_information.loc[running_tasks, 'start_time']`, and the
`task_information` dataframe has no `start_time` column (start times live in
`self.processes[i]['start_time']`): mitigation raises a pandas `KeyError` on
its first eviction step and the run aborts without evicting anything. -/
theorem claim_C1_code_bug :
    check_memory_usage c1cfg c1env c1st =
      Except.error (RunError.keyError "start_time") := by
  with_unfolding_all decide

/-- C2: code evaluation at the specification's own scenario (three running
tasks observed at 0.5, 0.5 and 4.0 GB, soft budget 1.0, hard limit
breached).  The claimed behaviour — evict until everything is gone, then
fail fatally enumerating all three tasks with their memory (the
`allProcessesKilled` error of the model) — is unreachable: the first
eviction step raises the `KeyError` for the missing `start_time` column. -/
theorem claim_C2_code_bug :
    check_memory_usage c2cfg c2env c2st =
      Except.error (RunError.keyError "start_time") := by
  with_unfolding_all decide

theorem zip_filter_map_fst (p : Int → Bool) :
    ∀ (as bs : List Int), as.length ≤ bs.length →
      (((as.zip bs).filter (fun q => p q.1)).map (fun q => q.1)) = as.filter p := by
  intro as
  induction as with
  | nil => intro bs h; simp
  | cons a as ih =>
    intro bs h
    cases bs with
    | nil => simp at h
    | cons b bs =>
      simp only [List.length_cons, Nat.add_le_add_iff_right] at h
      by_cases hp : p a = true <;>
        simp [List.zip_cons_cons, List.filter_cons, hp, ih bs h]

/-- C7: ledger initialization excludes from the runnable set exactly the
configured tasks whose `args` already appear in the durable completed-task
log, and fails fatally (the `RuntimeError` for zero uncompleted tasks) if and
only if the resulting runnable set is empty. -/
theorem claim_C7 (cfg : Config) (log : Option (List TaskRow))
    (hmeta : cfg.args.length ≤ cfg.metadata.length)
    (hlog : ∀ r ∈ log.getD [], r.remaining_to_do = false) :
    (generate_task_info_dataframe cfg log = Except.error RunError.noUncompletedTasks ↔
      cfg.args.filter
        (fun a => decide (a ∉ (log.getD []).map (fun r => r.args))) = []) ∧
    (∀ rows wh, generate_task_info_dataframe cfg log = Except.ok (rows, wh) →
      runnableArgs rows =
        cfg.args.filter (fun a => decide (a ∉ (log.getD []).map (fun r => r.args)))) := by
  have hkey := zip_filter_map_fst
    (fun a => decide (a ∉ (log.getD []).map (fun r => r.args)))
    cfg.args cfg.metadata hmeta
  have hlen : ((cfg.args.zip cfg.metadata).filter
      (fun q => decide (q.1 ∉ (log.getD []).map (fun r => r.args)))).length =
      (cfg.args.filter
        (fun a => decide (a ∉ (log.getD []).map (fun r => r.args)))).length := by
    rw [← hkey, List.length_map]
  constructor
  · constructor
    · intro herr
      by_cases hc : ((cfg.args.zip cfg.metadata).filter
          (fun q => decide (q.1 ∉ (log.getD []).map (fun r => r.args)))).length = 0
      · rw [← List.length_eq_zero, ← hlen]
        exact hc
      · exfalso
        simp only [generate_task_info_dataframe, if_neg hc] at herr
        cases herr
    · intro hnil
      have hc : ((cfg.args.zip cfg.metadata).filter
          (fun q => decide (q.1 ∉ (log.getD []).map (fun r => r.args)))).length = 0 := by
        rw [hlen, hnil]
        rfl
      simp only [generate_task_info_dataframe, if_pos hc]
  · intro rows wh hok
    by_cases hc : ((cfg.args.zip cfg.metadata).filter
        (fun q => decide (q.1 ∉ (log.getD []).map (fun r => r.args)))).length = 0
    · simp only [generate_task_info_dataframe, if_pos hc] at hok
      cases hok
    · simp only [generate_task_info_dataframe, if_neg hc] at hok
      cases hok
      unfold runnableArgs
      rw [List.filter_append]
      have hlognil : (log.getD []).filter (fun r => r.remaining_to_do) = [] := by
        rw [List.filter_eq_nil_iff]
        intro r hr
        simp [hlog r hr]
      have hnew : (((cfg.args.zip cfg.metadata).filter
            (fun q => decide (q.1 ∉ (log.getD []).map (fun r => r.args)))).map
              (fun p => mk_task_row p.1 p.2)).filter (fun r => r.remaining_to_do) =
          ((cfg.args.zip cfg.metadata).filter
            (fun q => decide (q.1 ∉ (log.getD []).map (fun r => r.args)))).map
              (fun p => mk_task_row p.1 p.2) := by
        rw [List.filter_eq_self]
        intro r hr
        obtain ⟨q, _, hq⟩ := List.mem_map.1 hr
        rw [← hq]
        rfl
      rw [hlognil, hnew, List.nil_append, List.map_map]
      exact hkey

/-- C7, witness: with the durable log containing `args=5` and configuration
`args=[5, 6]`, the runnable set is exactly `{6}`. -/
theorem claim_C7_witness : runnableArgs c7rows = [6] := by
  have h := (claim_C7 c7cfg (some [c7logrow]) (by decide) (by decide)).2 c7rows false
    (by with_unfolding_all decide)
  rw [h]
  with_unfolding_all decide

theorem getD_replicate {α : Type} (n i : Nat) (a : α) :
    (List.replicate n a).getD i a = a := by
  rw [List.getD_eq_getElem?_getD, List.getElem?_replicate]
  split <;> rfl

theorem poll_fold_frozen (env : TickEnv) (idxs : List Nat) (acc : Nat × Nat × SchedState)
    (h : ∀ i, (acc.2.2.processes.getD i default_process_dict).proc = none) :
    idxs.foldlM (fun a i => poll_slot env i a) acc = Except.ok acc := by
  obtain ⟨c, r, st⟩ := acc
  induction idxs with
  | nil => rfl
  | cons i rest ih =>
    rw [List.foldlM_cons]
    have hslot : poll_slot env i (c, r, st) = Except.ok (c, r, st) := by
      have hi := h i
      simp only [List.getD_eq_getElem?_getD] at hi
      simp [poll_slot, hi]
    rw [hslot]
    exact ih

theorem init_state_fields {cfg : Config} {log : Option (List TaskRow)} {st0 : SchedState}
    (h : init_state cfg log = Except.ok st0) :
    st0.current_task_assignments = List.replicate cfg.max_threads (-1) ∧
    st0.processes = List.replicate cfg.max_threads default_process_dict ∧
    st0.tasks_completed = 0 ∧
    st0.current_max_threads = initCap cfg.benchmarking_tasks ∧
    st0.tasks_total = cfg.args.length ∧
    ∃ wh, generate_task_info_dataframe cfg log = Except.ok (st0.task_information, wh) := by
  unfold init_state at h
  cases hg : generate_task_info_dataframe cfg log with
  | error e =>
    rw [hg] at h
    cases h
  | ok res =>
    rw [hg] at h
    cases h
    exact ⟨rfl, rfl, rfl, rfl, rfl, res.2, rfl⟩

theorem except_ok_bind {ε α β : Type} (a : α) (f : α → Except ε β) :
    (Except.ok a : Except ε α) >>= f = f a := rfl

theorem except_error_bind {ε α β : Type} (e : ε) (f : α → Except ε β) :
    (Except.error e : Except ε α) >>= f = Except.error e := rfl

/-- C10: with `benchmarking_tasks = 0`, `current_max_threads` is never
initialized before the first admission attempt — the constructor sets it only
for `benchmarking_tasks > 0` and the poll step sets it only once
`tasks_completed` strictly exceeds `benchmarking_tasks` — so the very first
iteration of the run loop fails with the missing-attribute error when
`_create_subprocesses` reads it, instead of admitting up to `max_threads`
tasks. -/
theorem claim_C10 (cfg : Config) (log : Option (List TaskRow)) (env : TickEnv)
    (st0 : SchedState) (hb : cfg.benchmarking_tasks = 0)
    (hhard : 0 ≤ cfg.max_memory_hard_limit)
    (hinit : init_state cfg log = Except.ok st0) :
    tick cfg env st0 = Except.error RunError.attributeError := by
  obtain ⟨ha, hp, hc, hm, -, -⟩ := init_state_fields hinit
  have hocc : ∀ i, st0.current_task_assignments.getD i (-1) = -1 := by
    intro i
    rw [ha, getD_replicate]
  have hprocnone : ∀ i, (st0.processes.getD i default_process_dict).proc = none := by
    intro i
    rw [hp, getD_replicate]
    rfl
  have h1total : (sample_state cfg env st0).total_memory_usage = 0 := by
    simp only [sample_state]
    apply List.sum_eq_zero
    intro x hx
    obtain ⟨i, hi, hix⟩ := List.mem_map.1 hx
    rw [← hix]
    have hoc := hocc i
    rw [List.getD_eq_getElem?_getD] at hoc
    simp [hoc]
  have hcm : check_memory_usage cfg env st0 = Except.ok (sample_state cfg env st0) := by
    simp only [check_memory_usage]
    rw [if_neg]
    rw [h1total]
    exact not_lt.mpr hhard
  have h1procs : (sample_state cfg env st0).processes = st0.processes := rfl
  have h1completed : (sample_state cfg env st0).tasks_completed = st0.tasks_completed := rfl
  have h1cap : (sample_state cfg env st0).current_max_threads =
      st0.current_max_threads := rfl
  have hcapnone : (sample_state cfg env st0).current_max_threads = none := by
    rw [h1cap, hm, hb]
    rfl
  have hcap1 : updateCap cfg.benchmarking_tasks cfg.max_threads
      (sample_state cfg env st0).tasks_completed
      (sample_state cfg env st0).current_max_threads =
      (sample_state cfg env st0).current_max_threads := by
    rw [updateCap, if_neg]
    rw [h1completed, hc, hb]
    omega
  have hpoll : poll_subprocesses cfg env (sample_state cfg env st0) =
      Except.ok (0, 0, sample_state cfg env st0) := by
    unfold poll_subprocesses
    rw [poll_fold_frozen env _ (0, 0, sample_state cfg env st0) (by
      intro i
      simp only [h1procs]
      exact hprocnone i)]
    show Except.ok (0, 0, _) = _
    rw [hcap1]
  have hcreate : create_subprocesses cfg env (sample_state cfg env st0) =
      Except.error RunError.attributeError := by
    simp only [create_subprocesses, hcapnone]
    rfl
  unfold tick
  rw [hcm, except_ok_bind, hpoll, except_ok_bind]
  simp [hcreate, except_error_bind]

/-- C10, witness: the concrete configuration `c10cfg` (one task,
`benchmarking_tasks = 0`): the first tick from startup fails with the
missing-attribute error. -/
theorem claim_C10_witness : tick c10cfg c10env c10st0 = Except.error RunError.attributeError :=
  claim_C10 c10cfg none c10env c10st0 rfl (by norm_num [c10cfg])
    (by with_unfolding_all decide)

theorem getElem_eq_of_getD {l : List Int} {i : Nat} {v : Int} (hi : i < l.length)
    (h : l.getD i 0 = v) : l[i] = v := by
  rw [List.getD_eq_getElem?_getD, List.getElem?_eq_getElem hi] at h
  simpa using h

theorem start_subprocess_ok_eq {env : TickEnv} {t : Nat} {st : SchedState} {slot : Nat}
    (hfree : firstFreeSlot st.current_task_assignments = some slot)
    (ht : t < st.task_information.length) :
    start_subprocess env t st = Except.ok (spec_assign env t slot st) := by
  have hrow : df_loc_row st.task_information (Int.ofNat t) =
      Except.ok (st.task_information.getD t default) := by
    unfold df_loc_row
    rw [if_pos]
    · simp
    · exact ⟨Int.ofNat_nonneg t, by simpa using ht⟩
  unfold start_subprocess spec_assign
  rw [hfree]
  simp only [Option.elim, except_ok_bind]
  rw [hrow]
  simp only [except_ok_bind]

theorem occCount_spec_assign (env : TickEnv) (t slot : Nat) (st : SchedState)
    (hslot : slot < st.current_task_assignments.length)
    (hfree : st.current_task_assignments.getD slot 0 = -1) :
    occCount (spec_assign env t slot st).current_task_assignments =
      occCount st.current_task_assignments + 1 := by
  show occCount (st.current_task_assignments.set slot (Int.ofNat t)) = _
  unfold occCount
  rw [List.countP_set _ _ _ _ hslot]
  have hv : st.current_task_assignments[slot] = -1 := getElem_eq_of_getD hslot hfree
  have hne : (Int.ofNat t : Int) ≠ -1 := by
    have h0 : (0 : Int) ≤ Int.ofNat t := Int.ofNat_nonneg t
    intro hq
    rw [hq] at h0
    norm_num at h0
  simp [hv, hne]

theorem admission_loop_eq_spec (n : Nat) (env : TickEnv) (cap : Nat)
    (hcaple : cap ≤ n) :
    ∀ (fuel : Nat) (available : ℚ) (st : SchedState),
      st.current_task_assignments.length = n →
      occCount st.current_task_assignments + fuel = cap →
      (admission_loop env available fuel st).map Prod.snd =
        spec_admission_loop env cap available fuel st := by
  intro fuel
  induction fuel with
  | zero =>
    intro available st hlen hocc
    rfl
  | succ f ih =>
    intro available st hlen hocc
    have hocclt : occCount st.current_task_assignments < cap := by omega
    unfold admission_loop spec_admission_loop
    by_cases hav : available > 0
    · rw [if_pos hav, if_pos ⟨hocclt, hav⟩]
      obtain ⟨slot, hfs, hslotlt, hslotval⟩ :=
        exists_free_slot (l := st.current_task_assignments)
          (by rw [hlen]; omega)
      cases he : firstValidTask st.task_information available with
      | none =>
        rw [show spec_eligible_task st.task_information available = none from he,
            show spec_free_slot st.current_task_assignments = some slot from hfs]
        rfl
      | some t =>
        rw [show spec_eligible_task st.task_information available = some t from he,
            show spec_free_slot st.current_task_assignments = some slot from hfs]
        dsimp only []
        have ht : t < st.task_information.length := findIdx?_some_lt he
        rw [start_subprocess_ok_eq hfs ht, except_ok_bind]
        have hrow' : df_loc_row (spec_assign env t slot st).task_information (Int.ofNat t) =
            Except.ok ((spec_assign env t slot st).task_information.getD t default) := by
          unfold df_loc_row
          rw [if_pos]
          · simp
          · refine ⟨Int.ofNat_nonneg t, ?_⟩
            show (Int.ofNat t).toNat < (st.task_information.set t _).length
            rw [List.length_set]
            simpa using ht
        rw [hrow', except_ok_bind]
        have hexp : ((spec_assign env t slot st).task_information.getD t default).expected_memory
            = (st.task_information.getD t default).expected_memory := by
          show (((st.task_information.set t _).getD t default)).expected_memory = _
          rw [List.getD_eq_getElem?_getD, List.getElem?_set_self ht]
          rfl
        rw [hexp]
        have hmap : ∀ (m : Except RunError (Nat × SchedState)),
            ((m >>= fun res => Except.ok (res.1 + 1, res.2)).map Prod.snd) =
              m.map Prod.snd := by
          intro m
          cases m <;> rfl
        rw [hmap]
        apply ih
        · show (st.current_task_assignments.set slot _).length = n
          rw [List.length_set]
          exact hlen
        · rw [occCount_spec_assign env t slot st hslotlt hslotval]
          omega
    · rw [if_neg hav, if_neg (by tauto)]
      rfl

/-- C3: the admission step of the source (`_create_subprocesses` /
`_start_subprocess`) coincides with the specification's admission algorithm
(`spec_admission`): compute `available_memory = max_memory − max(observed,
expected)`; while a slot is free under the effective concurrency cap and
`available_memory > 0`, admit the first ledger-order task with
`remaining_to_do` and `expected_memory < available_memory` into the
lowest-index free slot, start it, subtract its expected memory, mark it
admitted; stop when no slot is free, the cap is reached, or no eligible task
fits.  Hypotheses: the effective cap is initialized and at most
`max_threads`, and the slot array has its configured size. -/
theorem claim_C3 (cfg : Config) (env : TickEnv) (st : SchedState) (cap : Nat)
    (hcap : st.current_max_threads = some cap)
    (hcaple : cap ≤ cfg.max_threads)
    (hlen : st.current_task_assignments.length = cfg.max_threads) :
    (create_subprocesses cfg env st).map Prod.snd = spec_admission cfg env st := by
  unfold create_subprocesses spec_admission
  rw [hcap]
  simp only [Option.elim, except_ok_bind]
  by_cases hocc : occCount st.current_task_assignments ≤ cap
  · apply admission_loop_eq_spec cfg.max_threads env cap hcaple _ _ _ hlen
    omega
  · have h0 : ((cap : Int) - (occCount st.current_task_assignments : Int)).toNat = 0 := by
      omega
    rw [h0]
    rfl

/-- C3, witness: the specification's scenario — `max_threads = 2`, two tasks
of expected memory 1 each under `max_memory = 3` and cap 2: the code's
admission step and the spec's admission algorithm agree (both admit both
tasks in the same tick). -/
theorem claim_C3_witness :
    (create_subprocesses c3cfg c3env c3st).map Prod.snd = spec_admission c3cfg c3env c3st :=
  claim_C3 c3cfg c3env c3st 2 rfl (by decide) (by decide)

theorem getD_set_self {α : Type} (l : List α) (i : Nat) (x d : α) (h : i < l.length) :
    (l.set i x).getD i d = x := by
  rw [List.getD_eq_getElem?_getD, List.getElem?_set_self h]
  rfl

theorem getD_set_ne {α : Type} (l : List α) (i j : Nat) (x d : α) (h : i ≠ j) :
    (l.set i x).getD j d = l.getD j d := by
  rw [List.getD_eq_getElem?_getD, List.getElem?_set_ne h, ← List.getD_eq_getElem?_getD]

theorem getD_eq_getElem {α : Type} {l : List α} {i : Nat} (d : α) (h : i < l.length) :
    l.getD i d = l[i] := by
  rw [List.getD_eq_getElem?_getD, List.getElem?_eq_getElem h]
  rfl

theorem occCount_set_close : ∀ (l : List Int) (i : Nat), i < l.length →
    l.getD i (-1) ≠ -1 → occCount (l.set i (-1)) + 1 = occCount l := by
  intro l
  induction l with
  | nil =>
    intro i hi
    simp at hi
  | cons a as ih =>
    intro i hi hold
    cases i with
    | zero =>
      show occCount (-1 :: as) + 1 = occCount (a :: as)
      unfold occCount
      rw [List.countP_cons, List.countP_cons]
      have ha : decide (a ≠ -1) = true := by simpa using hold
      simp [ha]
    | succ n =>
      show occCount (a :: as.set n (-1)) + 1 = occCount (a :: as)
      unfold occCount
      rw [List.countP_cons, List.countP_cons]
      have hrec := ih n (by simpa using hi) (by simpa using hold)
      unfold occCount at hrec
      omega

theorem notRemCount_set_same (tasks : List TaskRow) (i : Nat) (x : TaskRow)
    (hsame : x.remaining_to_do = (tasks.getD i default).remaining_to_do) :
    notRemCount (tasks.set i x) = notRemCount tasks := by
  by_cases h : i < tasks.length
  · unfold notRemCount
    rw [List.countP_set _ _ _ _ h]
    rw [getD_eq_getElem default h] at hsame
    rw [hsame]
    have hge := List.boole_getElem_le_countP (fun r => !r.remaining_to_do) tasks i h
    omega
  · rw [List.set_eq_of_length_le (by omega)]

theorem notRemCount_set_flip (tasks : List TaskRow) (i : Nat) (x : TaskRow)
    (h : i < tasks.length)
    (hold : (tasks.getD i default).remaining_to_do = true)
    (hnew : x.remaining_to_do = false) :
    notRemCount (tasks.set i x) = notRemCount tasks + 1 := by
  unfold notRemCount
  rw [List.countP_set _ _ _ _ h]
  rw [getD_eq_getElem default h] at hold
  simp [hold, hnew]

theorem foldl_preserves {β γ : Type} (f : γ → β → γ) (P : γ → Prop)
    (hstep : ∀ acc b, P acc → P (f acc b)) :
    ∀ (l : List β) (init : γ), P init → P (l.foldl f init) := by
  intro l
  induction l with
  | nil => intro init h; exact h
  | cons b bs ih =>
    intro init h
    rw [List.foldl_cons]
    exact ih _ (hstep init b h)

theorem bump_memory_props (env : TickEnv) (assignments : List Int) (slots : List Nat)
    (tasks : List TaskRow) :
    (bump_memory env assignments slots tasks).length = tasks.length ∧
    (∀ t, ((bump_memory env assignments slots tasks).getD t default).remaining_to_do =
      (tasks.getD t default).remaining_to_do) ∧
    notRemCount (bump_memory env assignments slots tasks) = notRemCount tasks := by
  unfold bump_memory
  refine foldl_preserves _
    (fun acc => acc.length = tasks.length ∧
      (∀ t, (acc.getD t default).remaining_to_do =
        (tasks.getD t default).remaining_to_do) ∧
      notRemCount acc = notRemCount tasks) ?_ slots tasks ⟨rfl, fun _ => rfl, rfl⟩
  intro acc i h
  obtain ⟨hlen, hrem, hcount⟩ := h
  dsimp only []
  cases hmem : (acc.getD ((assignments.getD i (-1)).toNat) default).memory with
  | none => exact ⟨hlen, hrem, hcount⟩
  | some old =>
    dsimp only []
    by_cases hgt : env.mem i > old
    · rw [if_pos hgt]
      refine ⟨by rw [List.length_set]; exact hlen, ?_, ?_⟩
      · intro s
        by_cases hts : (assignments.getD i (-1)).toNat = s
        · subst hts
          by_cases htlen : (assignments.getD i (-1)).toNat < acc.length
          · rw [getD_set_self _ _ _ _ htlen]
            exact hrem _
          · rw [List.set_eq_of_length_le (by omega)]
            exact hrem _
        · rw [getD_set_ne _ _ _ _ _ hts]
          exact hrem s
      · rw [notRemCount_set_same]
        · exact hcount
        · rfl
    · rw [if_neg hgt]
      exact ⟨hlen, hrem, hcount⟩

theorem inv_sample {cfg : Config} {P : Nat} (env : TickEnv) {st : SchedState}
    (h : Inv cfg P st) : Inv cfg P (sample_state cfg env st) := by
  obtain ⟨hbl, hbr, hbc⟩ :=
    bump_memory_props env st.current_task_assignments (running_process_slots st)
      st.task_information
  refine ⟨h.len_assign, h.len_procs, h.total_eq, ?_, ?_, h.proc_iff, h.start_time_some,
    h.nodup, ?_, ?_⟩
  · show (bump_memory _ _ _ _).length ≤ _
    rw [hbl]
    exact h.tasks_le
  · intro a ha
    rcases h.bound a ha with h1 | ⟨h1, h2⟩
    · exact Or.inl h1
    · exact Or.inr ⟨h1, by rw [show (sample_state cfg env st).task_information.length =
        st.task_information.length from hbl]; exact h2⟩
  · intro i hi hocc
    rw [show (sample_state cfg env st).task_information = bump_memory env
      st.current_task_assignments (running_process_slots st) st.task_information from rfl,
      hbr]
    exact h.assigned_not_remaining i hi hocc
  · show notRemCount (bump_memory _ _ _ _) = _
    rw [hbc]
    exact h.count_eq

theorem inv_check {cfg : Config} {P : Nat} {env : TickEnv} {st st' : SchedState}
    (h : Inv cfg P st) (hok : check_memory_usage cfg env st = Except.ok st') :
    Inv cfg P st' := by
  rw [check_memory_usage_ok hok]
  exact inv_sample env h

theorem close_subprocess_inv {cfg : Config} {P : Nat} {env : TickEnv} {i : Nat}
    {st st' : SchedState} (hInv : Inv cfg P st) (hi : i < cfg.max_threads)
    (hocc : st.current_task_assignments.getD i (-1) ≠ -1)
    (h : close_subprocess env i true st = Except.ok st') : Inv cfg P st' := by
  have hleni : i < st.current_task_assignments.length := by
    rw [hInv.len_assign]
    exact hi
  have hlenpi : i < st.processes.length := by
    rw [hInv.len_procs]
    exact hi
  have hmem : st.current_task_assignments.getD i (-1) ∈ st.current_task_assignments := by
    rw [getD_eq_getElem _ hleni]
    exact List.getElem_mem hleni
  rcases hInv.bound _ hmem with hb1 | ⟨hb1, hb2⟩
  · exact absurd hb1 hocc
  have hrow : df_loc_row st.task_information (st.current_task_assignments.getD i (-1)) =
      Except.ok (st.task_information.getD
        (st.current_task_assignments.getD i (-1)).toNat default) := by
    unfold df_loc_row
    rw [if_pos ⟨hb1, hb2⟩]
  have hpsome := (hInv.proc_iff i hi).1 hocc
  have hssome := hInv.start_time_some i hi hpsome
  obtain ⟨stime, hstime⟩ := Option.isSome_iff_exists.1 hssome
  simp only [close_subprocess] at h
  rw [hrow, except_ok_bind] at h
  simp only [hstime, Option.elim, except_ok_bind, if_pos] at h
  cases h
  have hremold := hInv.assigned_not_remaining i hi hocc
  have hoccset := occCount_set_close st.current_task_assignments i hleni hocc
  refine ⟨?_, ?_, hInv.total_eq, ?_, ?_, ?_, ?_, ?_, ?_, ?_⟩
  · show (st.current_task_assignments.set i (-1)).length = cfg.max_threads
    rw [List.length_set]
    exact hInv.len_assign
  · show (st.processes.set i default_process_dict).length = cfg.max_threads
    rw [List.length_set]
    exact hInv.len_procs
  · show (st.task_information.set _ _).length ≤ P + st.tasks_total
    rw [List.length_set]
    exact hInv.tasks_le
  · intro a ha
    rcases List.mem_or_eq_of_mem_set ha with ha1 | ha1
    · rcases hInv.bound a ha1 with hh | ⟨hh1, hh2⟩
      · exact Or.inl hh
      · refine Or.inr ⟨hh1, ?_⟩
        show a.toNat < (st.task_information.set _ _).length
        rw [List.length_set]
        exact hh2
    · exact Or.inl ha1
  · intro j hj
    by_cases hji : j = i
    · subst hji
      rw [getD_set_self _ _ _ _ hleni, getD_set_self _ _ _ _ hlenpi]
      constructor
      · intro hcon
        exact absurd rfl hcon
      · intro hcon
        cases hcon
    · rw [getD_set_ne _ _ _ _ _ (fun hh => hji hh.symm),
        getD_set_ne _ _ _ _ _ (fun hh => hji hh.symm)]
      exact hInv.proc_iff j hj
  · intro j hj
    by_cases hji : j = i
    · subst hji
      rw [getD_set_self _ _ _ _ hlenpi]
      intro hcon
      cases hcon
    · rw [getD_set_ne _ _ _ _ _ (fun hh => hji hh.symm)]
      exact hInv.start_time_some j hj
  · intro j k hj hk hjk hjne
    by_cases hji : j = i
    · subst hji
      rw [getD_set_self _ _ _ _ hleni] at hjne
      exact absurd rfl hjne
    · rw [getD_set_ne _ _ _ _ _ (fun hh => hji hh.symm)] at hjne ⊢
      by_cases hki : k = i
      · subst hki
        rw [getD_set_self _ _ _ _ hleni]
        exact hjne
      · rw [getD_set_ne _ _ _ _ _ (fun hh => hki hh.symm)]
        exact hInv.nodup j k hj hk hjk hjne
  · intro j hj hjne
    by_cases hji : j = i
    · subst hji
      rw [getD_set_self _ _ _ _ hleni] at hjne
      exact absurd rfl hjne
    · rw [getD_set_ne _ _ _ _ _ (fun hh => hji hh.symm)] at hjne ⊢
      have hjmem : st.current_task_assignments.getD j (-1) ∈ st.current_task_assignments := by
        rw [getD_eq_getElem _ (by rw [hInv.len_assign]; exact hj)]
        exact List.getElem_mem _
      rcases hInv.bound _ hjmem with hv1 | ⟨hv1, hv2⟩
      · exact absurd hv1 hjne
      have hdiff := hInv.nodup i j hi hj (fun hh => hji hh.symm) hocc
      have hne_idx : (st.current_task_assignments.getD i (-1)).toNat ≠
          (st.current_task_assignments.getD j (-1)).toNat := by
        intro heq
        apply hdiff
        omega
      rw [getD_set_ne _ _ _ _ _ hne_idx]
      exact hInv.assigned_not_remaining j hj hjne
  · show notRemCount (st.task_information.set _ _) =
      P + occCount (st.current_task_assignments.set i (-1)) + (st.tasks_completed + 1)
    rw [notRemCount_set_same _ _ _ (by rw [hremold])]
    have := hInv.count_eq
    omega

theorem poll_slot_inv {cfg : Config} {P : Nat} {env : TickEnv} {i : Nat}
    {acc acc' : Nat × Nat × SchedState} (hInv : Inv cfg P acc.2.2)
    (h : poll_slot env i acc = Except.ok acc') : Inv cfg P acc'.2.2 := by
  obtain ⟨c, r, st⟩ := acc
  simp only [] at hInv
  simp only [poll_slot] at h
  cases hp : (st.processes.getD i default_process_dict).proc with
  | none =>
    rw [hp] at h
    cases h
    exact hInv
  | some u =>
    rw [hp] at h
    have hi : i < cfg.max_threads := by
      by_contra hni
      have hdef : st.processes.getD i default_process_dict = default_process_dict := by
        rw [List.getD_eq_getElem?_getD, List.getElem?_eq_none]
        · rfl
        · rw [hInv.len_procs]
          omega
      rw [hdef] at hp
      cases hp
    cases henv : env.exitcode i with
    | none =>
      rw [henv] at h
      cases h
      refine ⟨hInv.len_assign, by
          show (st.processes.set i _).length = cfg.max_threads
          rw [List.length_set]
          exact hInv.len_procs,
        hInv.total_eq, hInv.tasks_le, hInv.bound, ?_, ?_, hInv.nodup,
        hInv.assigned_not_remaining, hInv.count_eq⟩
      · intro j hj
        by_cases hji : j = i
        · subst hji
          rw [getD_set_self _ _ _ _ (by rw [hInv.len_procs]; exact hj)]
          have := hInv.proc_iff j hj
          rw [hp] at this
          simpa using this
        · rw [getD_set_ne _ _ _ _ _ (fun hh => hji hh.symm)]
          exact hInv.proc_iff j hj
      · intro j hj
        by_cases hji : j = i
        · subst hji
          rw [getD_set_self _ _ _ _ (by rw [hInv.len_procs]; exact hj)]
          intro _
          have := hInv.start_time_some j hj (by rw [hp]; rfl)
          simpa using this
        · rw [getD_set_ne _ _ _ _ _ (fun hh => hji hh.symm)]
          exact hInv.start_time_some j hj
    | some e =>
      rw [henv] at h
      dsimp only [] at h
      by_cases he : e = 0
      · rw [if_pos he] at h
        cases hcl : close_subprocess env i true st with
        | error er =>
          rw [hcl, except_error_bind] at h
          cases h
        | ok stc =>
          rw [hcl, except_ok_bind] at h
          cases h
          have hocc : st.current_task_assignments.getD i (-1) ≠ -1 := by
            apply (hInv.proc_iff i hi).2
            rw [hp]
            rfl
          exact close_subprocess_inv hInv hi hocc hcl
      · rw [if_neg he] at h
        cases h

theorem poll_fold_inv {cfg : Config} {P : Nat} {env : TickEnv} :
    ∀ (idxs : List Nat) (acc res : Nat × Nat × SchedState),
      Inv cfg P acc.2.2 →
      idxs.foldlM (fun a i => poll_slot env i a) acc = Except.ok res →
      Inv cfg P res.2.2 := by
  intro idxs
  induction idxs with
  | nil =>
    intro acc res h hf
    cases hf
    exact h
  | cons i rest ih =>
    intro acc res h hf
    rw [List.foldlM_cons] at hf
    cases hps : poll_slot env i acc with
    | error e =>
      rw [hps, except_error_bind] at hf
      cases hf
    | ok acc1 =>
      rw [hps, except_ok_bind] at hf
      exact ih acc1 res (poll_slot_inv h hps) hf

theorem poll_subprocesses_inv {cfg : Config} {P : Nat} {env : TickEnv} {st : SchedState}
    {res : Nat × Nat × SchedState} (hInv : Inv cfg P st)
    (h : poll_subprocesses cfg env st = Except.ok res) : Inv cfg P res.2.2 := by
  unfold poll_subprocesses at h
  cases hf : (List.range st.processes.length).foldlM (fun a i => poll_slot env i a)
      ((0, 0, st) : Nat × Nat × SchedState) with
  | error e =>
    rw [hf, except_error_bind] at h
    cases h
  | ok mid =>
    rw [hf, except_ok_bind] at h
    cases h
    have hmid : Inv cfg P mid.2.2 := poll_fold_inv _ _ _ hInv hf
    exact ⟨hmid.len_assign, hmid.len_procs, hmid.total_eq, hmid.tasks_le, hmid.bound,
      hmid.proc_iff, hmid.start_time_some, hmid.nodup, hmid.assigned_not_remaining,
      hmid.count_eq⟩

theorem start_subprocess_inv {cfg : Config} {P : Nat} {env : TickEnv} {t : Nat}
    {st st' : SchedState} (hInv : Inv cfg P st) (ht : t < st.task_information.length)
    (hrem : (st.task_information.getD t default).remaining_to_do = true)
    (h : start_subprocess env t st = Except.ok st') : Inv cfg P st' := by
  unfold start_subprocess at h
  have htn : (Int.ofNat t).toNat = t := rfl
  cases hfs : firstFreeSlot st.current_task_assignments with
  | none =>
    rw [hfs] at h
    simp only [Option.elim, except_error_bind] at h
    cases h
  | some slot =>
    rw [hfs] at h
    simp only [Option.elim, except_ok_bind] at h
    have hslot_lt : slot < st.current_task_assignments.length := findIdx?_some_lt hfs
    have hslot_ltp : slot < st.processes.length := by
      rw [hInv.len_procs, ← hInv.len_assign]
      exact hslot_lt
    have hslot_free : st.current_task_assignments.getD slot (-1) = -1 := by
      have := findIdx?_some_getD (-1) hfs
      simpa using this
    have hrow : df_loc_row st.task_information (Int.ofNat t) =
        Except.ok (st.task_information.getD t default) := by
      unfold df_loc_row
      rw [if_pos ⟨Int.ofNat_nonneg t, by rw [htn]; exact ht⟩, htn]
    rw [hrow, except_ok_bind] at h
    cases h
    have hfresh : ∀ j, j < cfg.max_threads →
        st.current_task_assignments.getD j (-1) ≠ -1 →
        st.current_task_assignments.getD j (-1) ≠ Int.ofNat t := by
      intro j hj hjne heq
      have hno := hInv.assigned_not_remaining j hj hjne
      rw [heq, htn] at hno
      exact absurd (hrem.symm.trans hno) (by decide)
    have hoccset : occCount (st.current_task_assignments.set slot (Int.ofNat t)) =
        occCount st.current_task_assignments + 1 := by
      have h0 : st.current_task_assignments.getD slot 0 = -1 := by
        rw [getD_eq_getElem 0 hslot_lt, ← getD_eq_getElem (-1) hslot_lt]
        exact hslot_free
      exact occCount_spec_assign env t slot st hslot_lt h0
    refine ⟨?_, ?_, hInv.total_eq, ?_, ?_, ?_, ?_, ?_, ?_, ?_⟩
    · show (st.current_task_assignments.set slot _).length = cfg.max_threads
      rw [List.length_set]
      exact hInv.len_assign
    · show (st.processes.set slot _).length = cfg.max_threads
      rw [List.length_set]
      exact hInv.len_procs
    · show (st.task_information.set t _).length ≤ P + st.tasks_total
      rw [List.length_set]
      exact hInv.tasks_le
    · intro a ha
      rcases List.mem_or_eq_of_mem_set ha with ha1 | ha1
      · rcases hInv.bound a ha1 with hh | ⟨hh1, hh2⟩
        · exact Or.inl hh
        · refine Or.inr ⟨hh1, ?_⟩
          show a.toNat < (st.task_information.set t _).length
          rw [List.length_set]
          exact hh2
      · subst ha1
        refine Or.inr ⟨Int.ofNat_nonneg t, ?_⟩
        show (Int.ofNat t).toNat < (st.task_information.set t _).length
        rw [List.length_set, htn]
        exact ht
    · intro j hj
      by_cases hjs : j = slot
      · subst hjs
        rw [getD_set_self _ _ _ _ hslot_lt, getD_set_self _ _ _ _ hslot_ltp]
        constructor
        · intro _
          rfl
        · intro _
          have h0 : (0 : Int) ≤ Int.ofNat t := Int.ofNat_nonneg t
          intro hq
          rw [hq] at h0
          norm_num at h0
      · rw [getD_set_ne _ _ _ _ _ (fun hh => hjs hh.symm),
          getD_set_ne _ _ _ _ _ (fun hh => hjs hh.symm)]
        exact hInv.proc_iff j hj
    · intro j hj
      by_cases hjs : j = slot
      · subst hjs
        rw [getD_set_self _ _ _ _ hslot_ltp]
        intro _
        rfl
      · rw [getD_set_ne _ _ _ _ _ (fun hh => hjs hh.symm)]
        exact hInv.start_time_some j hj
    · intro j k hj hk hjk hjne
      by_cases hjs : j = slot
      · subst hjs
        rw [getD_set_self _ _ _ _ hslot_lt]
        by_cases hks : k = j
        · exact absurd hks.symm hjk
        · rw [getD_set_ne _ _ _ _ _ (fun hh => hks hh.symm)]
          by_cases hkocc : st.current_task_assignments.getD k (-1) = -1
          · rw [hkocc]
            have h0 : (0 : Int) ≤ Int.ofNat t := Int.ofNat_nonneg t
            intro hq
            rw [hq] at h0
            norm_num at h0
          · intro heq
            exact hfresh k hk hkocc heq.symm
      · rw [getD_set_ne _ _ _ _ _ (fun hh => hjs hh.symm)] at hjne ⊢
        by_cases hks : k = slot
        · subst hks
          rw [getD_set_self _ _ _ _ hslot_lt]
          exact hfresh j hj hjne
        · rw [getD_set_ne _ _ _ _ _ (fun hh => hks hh.symm)]
          exact hInv.nodup j k hj hk hjk hjne
    · intro j hj hjne
      by_cases hjs : j = slot
      · subst hjs
        rw [getD_set_self _ _ _ _ hslot_lt] at hjne ⊢
        rw [htn, getD_set_self _ _ _ _ ht]
      · rw [getD_set_ne _ _ _ _ _ (fun hh => hjs hh.symm)] at hjne ⊢
        have hjmem : st.current_task_assignments.getD j (-1) ∈
            st.current_task_assignments := by
          rw [getD_eq_getElem _ (by rw [hInv.len_assign]; exact hj)]
          exact List.getElem_mem _
        rcases hInv.bound _ hjmem with hv1 | ⟨hv1, hv2⟩
        · exact absurd hv1 hjne
        have hne_val := hfresh j hj hjne
        have hne_idx : t ≠ (st.current_task_assignments.getD j (-1)).toNat := by
          intro heq
          apply hne_val
          rw [← Int.toNat_of_nonneg hv1, ← heq]
          rfl
        rw [getD_set_ne _ _ _ _ _ hne_idx]
        exact hInv.assigned_not_remaining j hj hjne
    · show notRemCount (st.task_information.set t _) =
        P + occCount (st.current_task_assignments.set slot (Int.ofNat t)) +
          st.tasks_completed
      rw [notRemCount_set_flip _ _ _ ht hrem rfl, hoccset]
      have := hInv.count_eq
      omega

theorem admission_loop_inv {cfg : Config} {P : Nat} {env : TickEnv} :
    ∀ (fuel : Nat) (available : ℚ) (st : SchedState) (res : Nat × SchedState),
      Inv cfg P st → admission_loop env available fuel st = Except.ok res →
      Inv cfg P res.2 := by
  intro fuel
  induction fuel with
  | zero =>
    intro av st res h hl
    cases hl
    exact h
  | succ f ih =>
    intro av st res h hl
    unfold admission_loop at hl
    by_cases hav : av > 0
    · rw [if_pos hav] at hl
      cases he : firstValidTask st.task_information av with
      | none =>
        rw [he] at hl
        cases hl
        exact h
      | some t =>
        rw [he] at hl
        dsimp only [] at hl
        have ht : t < st.task_information.length := findIdx?_some_lt he
        have hrem : (st.task_information.getD t default).remaining_to_do = true := by
          have hd := findIdx?_some_getD default he
          rw [Bool.and_eq_true] at hd
          exact hd.1
        cases hss : start_subprocess env t st with
        | error e =>
          rw [hss, except_error_bind] at hl
          cases hl
        | ok st1 =>
          rw [hss, except_ok_bind] at hl
          have h1 : Inv cfg P st1 := start_subprocess_inv h ht hrem hss
          cases hrr : df_loc_row st1.task_information (Int.ofNat t) with
          | error e =>
            rw [hrr, except_error_bind] at hl
            cases hl
          | ok row' =>
            rw [hrr, except_ok_bind] at hl
            cases hrec : admission_loop env (av - row'.expected_memory) f st1 with
            | error e =>
              rw [hrec, except_error_bind] at hl
              cases hl
            | ok res1 =>
              rw [hrec, except_ok_bind] at hl
              cases hl
              exact ih (av - row'.expected_memory) st1 res1 h1 hrec
    · rw [if_neg hav] at hl
      cases hl
      exact h

theorem create_subprocesses_inv {cfg : Config} {P : Nat} {env : TickEnv}
    {st : SchedState} {res : Nat × SchedState} (hInv : Inv cfg P st)
    (h : create_subprocesses cfg env st = Except.ok res) : Inv cfg P res.2 := by
  unfold create_subprocesses at h
  cases hc : st.current_max_threads with
  | none =>
    rw [hc] at h
    simp only [Option.elim, except_error_bind] at h
    cases h
  | some cap =>
    rw [hc] at h
    simp only [Option.elim, except_ok_bind] at h
    exact admission_loop_inv _ _ _ _ hInv h

theorem tick_inv {cfg : Config} {P : Nat} {env : TickEnv} {st st' : SchedState}
    (hInv : Inv cfg P st) (h : tick cfg env st = Except.ok st') : Inv cfg P st' := by
  unfold tick at h
  cases hcm : check_memory_usage cfg env st with
  | error e =>
    rw [hcm, except_error_bind] at h
    cases h
  | ok st1 =>
    rw [hcm, except_ok_bind] at h
    have h1 := inv_check hInv hcm
    cases hpl : poll_subprocesses cfg env st1 with
    | error e =>
      rw [hpl, except_error_bind] at h
      cases h
    | ok res =>
      rw [hpl, except_ok_bind] at h
      have h2 := poll_subprocesses_inv h1 hpl
      by_cases hcond : res.1 > 0 ∨ res.2.1 = 0
      · rw [if_pos hcond] at h
        cases hcr : create_subprocesses cfg env res.2.2 with
        | error e =>
          rw [hcr, except_error_bind] at h
          cases h
        | ok res2 =>
          rw [hcr, except_ok_bind] at h
          cases h
          exact create_subprocesses_inv h2 hcr
      · rw [if_neg hcond] at h
        cases h
        exact h2

theorem init_state_inv {cfg : Config} {log : Option (List TaskRow)} {st0 : SchedState}
    (hlog : ∀ r ∈ log.getD [], r.remaining_to_do = false)
    (h : init_state cfg log = Except.ok st0) : Inv cfg (log.getD []).length st0 := by
  unfold init_state at h
  cases hg : generate_task_info_dataframe cfg log with
  | error e =>
    rw [hg, except_error_bind] at h
    cases h
  | ok res =>
    rw [hg, except_ok_bind] at h
    cases h
    unfold generate_task_info_dataframe at hg
    by_cases hc : ((cfg.args.zip cfg.metadata).filter
        (fun p => decide (p.1 ∉ (log.getD []).map (fun r => r.args)))).length = 0
    · rw [if_pos hc] at hg
      cases hg
    · rw [if_neg hc] at hg
      cases hg
      have hocc0 : occCount (List.replicate cfg.max_threads (-1 : Int)) = 0 := by
        apply List.countP_eq_zero.2
        intro a ha
        have := List.eq_of_mem_replicate ha
        simp [this]
      refine ⟨by simp, by simp, rfl, ?_, ?_, ?_, ?_, ?_, ?_, ?_⟩
      · show ((log.getD []) ++ _).length ≤ (log.getD []).length + cfg.args.length
        rw [List.length_append]
        have h1 : (((cfg.args.zip cfg.metadata).filter
            (fun p => decide (p.1 ∉ (log.getD []).map (fun r => r.args)))).map
              (fun p => mk_task_row p.1 p.2)).length ≤ cfg.args.length := by
          rw [List.length_map]
          calc ((cfg.args.zip cfg.metadata).filter _).length
              ≤ (cfg.args.zip cfg.metadata).length := List.length_filter_le _ _
            _ ≤ cfg.args.length := by rw [List.length_zip]; omega
        omega
      · intro a ha
        exact Or.inl (List.eq_of_mem_replicate ha)
      · intro i hi
        rw [getD_replicate, getD_replicate]
        constructor
        · intro hcon
          exact absurd rfl hcon
        · intro hcon
          cases hcon
      · intro i hi
        rw [getD_replicate]
        intro hcon
        cases hcon
      · intro j k hj hk hjk hjne
        rw [getD_replicate] at hjne
        exact absurd rfl hjne
      · intro j hj hjne
        rw [getD_replicate] at hjne
        exact absurd rfl hjne
      · show notRemCount ((log.getD []) ++ _) =
          (log.getD []).length + occCount (List.replicate cfg.max_threads (-1)) + 0
        rw [hocc0]
        unfold notRemCount
        rw [List.countP_append]
        have hlogcount : (log.getD []).countP (fun r => !r.remaining_to_do) =
            (log.getD []).length := by
          apply List.countP_eq_length.2
          intro r hr
          rw [hlog r hr]
          rfl
        have hnewcount : (((cfg.args.zip cfg.metadata).filter
            (fun p => decide (p.1 ∉ (log.getD []).map (fun r => r.args)))).map
              (fun p => mk_task_row p.1 p.2)).countP (fun r => !r.remaining_to_do) = 0 := by
          apply List.countP_eq_zero.2
          intro r hr
          obtain ⟨q, _, hq⟩ := List.mem_map.1 hr
          rw [← hq]
          simp [mk_task_row]
        rw [hlogcount, hnewcount]

theorem reachable_inv {cfg : Config} {log : Option (List TaskRow)} {st : SchedState}
    (hlog : ∀ r ∈ log.getD [], r.remaining_to_do = false)
    (h : Reachable cfg log st) : Inv cfg (log.getD []).length st := by
  induction h with
  | init st0 h0 => exact init_state_inv hlog h0
  | step stp env stp' hr htick ih => exact tick_inv ih htick

/-- C5: the run loop's exit condition is truthful.  On every reachable state
of the scheduler, `tasks_completed = tasks_total` (the loop's exit test)
implies that every ledger row has `remaining_to_do = false` and every process
slot is free — no pending or running work remains.  (In the embedding, every
reachable ok-state counts one completion per exit-0 close: the eviction path,
the only other incrementer of `tasks_completed`, always aborts the run with
the `start_time` KeyError before closing anything.) -/
theorem claim_C5 (cfg : Config) (log : Option (List TaskRow)) (st : SchedState)
    (hlog : ∀ r ∈ log.getD [], r.remaining_to_do = false)
    (hreach : Reachable cfg log st)
    (hdone : st.tasks_completed = st.tasks_total) :
    (∀ r ∈ st.task_information, r.remaining_to_do = false) ∧
    occCount st.current_task_assignments = 0 ∧
    (∀ i, i < cfg.max_threads →
      (st.processes.getD i default_process_dict).proc = none) := by
  have hInv := reachable_inv hlog hreach
  have hcount := hInv.count_eq
  have hle1 : notRemCount st.task_information ≤ st.task_information.length :=
    List.countP_le_length _
  have hle2 := hInv.tasks_le
  rw [hdone] at hcount
  have hocc0 : occCount st.current_task_assignments = 0 := by
    unfold notRemCount at hcount hle1
    omega
  have hnotrem : notRemCount st.task_information = st.task_information.length := by
    unfold notRemCount at hcount hle1 ⊢
    omega
  refine ⟨?_, hocc0, ?_⟩
  · intro r hr
    have hall := List.countP_eq_length.1 hnotrem r hr
    simpa using hall
  · intro i hi
    have hz := List.countP_eq_zero.1 hocc0
    have hmem : st.current_task_assignments.getD i (-1) ∈ st.current_task_assignments := by
      rw [getD_eq_getElem _ (by rw [hInv.len_assign]; exact hi)]
      exact List.getElem_mem _
    have hi1 : st.current_task_assignments.getD i (-1) = -1 := by
      have := hz _ hmem
      simpa using this
    have hiff := hInv.proc_iff i hi
    have hns : ¬ (st.processes.getD i default_process_dict).proc.isSome = true := by
      intro hcon
      exact (hiff.2 hcon) hi1
    exact Option.not_isSome_iff_eq_none.1 hns

/-- C5, witness: a complete two-tick run of one task (admitted at tick 1,
closed with exit 0 at tick 2) ends in a reachable state with
`tasks_completed = tasks_total = 1`, in which no task remains to do and all
slots are free. -/
theorem claim_C5_witness :
    (∀ r ∈ w5st2.task_information, r.remaining_to_do = false) ∧
    occCount w5st2.current_task_assignments = 0 ∧
    (∀ i, i < w5cfg.max_threads →
      (w5st2.processes.getD i default_process_dict).proc = none) :=
  claim_C5 w5cfg none w5st2 (by simp)
    (Reachable.step w5st1 w5env2 w5st2
      (Reachable.step w5st0 w5env1 w5st1
        (Reachable.init w5st0 (by with_unfolding_all decide))
        (by with_unfolding_all decide))
      (by with_unfolding_all decide))
    rfl

/-- C8: at every reachable state of the scheduler, the slot array has exactly
`max_threads` single-assignment cells, the non-sentinel `assigned_task_id`
values (`current_task_assignments` entries ≠ −1) are pairwise distinct, and a
slot holds a non-sentinel task exactly when it holds a live process handle —
so the assigned ids are a duplicate-free subset of the currently-running
tasks. -/
theorem claim_C8 (cfg : Config) (log : Option (List TaskRow)) (st : SchedState)
    (hlog : ∀ r ∈ log.getD [], r.remaining_to_do = false)
    (hreach : Reachable cfg log st) :
    st.current_task_assignments.length = cfg.max_threads ∧
    (∀ i j, i < cfg.max_threads → j < cfg.max_threads → i ≠ j →
      st.current_task_assignments.getD i (-1) ≠ -1 →
      st.current_task_assignments.getD i (-1) ≠ st.current_task_assignments.getD j (-1)) ∧
    (∀ i, i < cfg.max_threads →
      (st.current_task_assignments.getD i (-1) ≠ -1 ↔
        (st.processes.getD i default_process_dict).proc.isSome = true)) := by
  have hInv := reachable_inv hlog hreach
  exact ⟨hInv.len_assign, hInv.nodup, hInv.proc_iff⟩

/-- C8, witness: after one tick of `w8cfg` (task 0 admitted into slot 0 under
the benchmark cap), the reachable state satisfies the slot invariants. -/
theorem claim_C8_witness :
    w8st1.current_task_assignments.length = w8cfg.max_threads ∧
    (∀ i j, i < w8cfg.max_threads → j < w8cfg.max_threads → i ≠ j →
      w8st1.current_task_assignments.getD i (-1) ≠ -1 →
      w8st1.current_task_assignments.getD i (-1) ≠
        w8st1.current_task_assignments.getD j (-1)) ∧
    (∀ i, i < w8cfg.max_threads →
      (w8st1.current_task_assignments.getD i (-1) ≠ -1 ↔
        (w8st1.processes.getD i default_process_dict).proc.isSome = true)) :=
  claim_C8 w8cfg none w8st1 (by simp)
    (Reachable.step w8st0 w8env w8st1
      (Reachable.init w8st0 (by with_unfolding_all decide))
      (by with_unfolding_all decide))

end SMP
